import Mathlib

/-!
Shallow embedding of the dvb-exporter program (main.go): the label/value
rendering helpers, the `/metrics` handler (v5 and v3 metric blocks), and the
startup device-discovery scan, together with theorems about them.

Machine integers are modelled as `Nat`/`Int` with explicit range side
conditions where they matter; Go strings are Lean `String`s (all rendered
text is ASCII); fallible hardware queries are `Except` values; Go map
iteration order (which Go leaves unspecified and randomizes) is an explicit
`Bool` order parameter on the two-key labels map.
-/

namespace DvbExporter

/-- Character for a single decimal digit d (0 ≤ d ≤ 9). -/
def digitChar (d : Nat) : Char := Char.ofNat (48 + d)

/-- Decimal digit production with explicit fuel (structural recursion, so
that the kernel can evaluate it); the fuel is never exhausted when it is
at least the argument. -/
def natDigitsF : Nat → Nat → List Char → List Char
  | 0, n, acc => digitChar n :: acc
  | f + 1, n, acc =>
    if n < 10 then digitChar n :: acc
    else natDigitsF f (n / 10) (digitChar (n % 10) :: acc)

/-- Decimal digits of `n`, most significant first, prepended to `acc`.
Models the digit production of Go `strconv.Itoa` / `fmt` `%d`. -/
def natDigits (n : Nat) (acc : List Char) : List Char := natDigitsF n n acc

/-- Base-10 rendering of a natural number. -/
def natToStr (n : Nat) : String := String.mk (natDigits n [])

/-- Models Go `strconv.Itoa` / `fmt.Sprintf` with `%d` on the integer family:
exact base-10 representation with a leading minus sign for negatives. -/
def goItoa (i : Int) : String :=
  (if i < 0 then "-" else "") ++ natToStr i.natAbs

/-- Left-pad a string with zeros to width `w`. -/
def zeroPad (w : Nat) (s : String) : String :=
  String.mk (List.replicate (w - s.length) '0' ++ s.data)

/-- Models `fmt.Sprintf` with `%f` (fixed six fractional digits, per the Go
fmt documentation) for float64 values that are exact multiples of 1e-6;
the argument is the value scaled by 1e6. -/
def goFmtFloat (micros : Int) : String :=
  (if micros < 0 then "-" else "")
    ++ natToStr (micros.natAbs / 1000000)
    ++ "." ++ zeroPad 6 (natToStr (micros.natAbs % 1000000))

/-- Value of a list of decimal digit characters, if all are digits.
Models the digit-parsing core of Go `strconv.Atoi`. -/
def digitsToNat (cs : List Char) : Option Nat :=
  if cs.isEmpty then none
  else if cs.all Char.isDigit then
    some (cs.foldl (fun a c => a * 10 + (c.toNat - 48)) 0)
  else none

/-- Models Go `strconv.Atoi`: optional sign followed by decimal digits
(overflow is not modelled; inputs in this program are short suffixes). -/
def goAtoi (s : String) : Option Int :=
  match s.data with
  | '-' :: rest => (digitsToNat rest).map (fun n => -(Int.ofNat n))
  | '+' :: rest => (digitsToNat rest).map (fun n => Int.ofNat n)
  | cs => (digitsToNat cs).map (fun n => Int.ofNat n)

/-- Drop the first `n` characters of a string (Go slice `s[n:]` on ASCII). -/
def strDrop (s : String) (n : Nat) : String := String.mk (s.data.drop n)

/-- Models `filepath.Base` on the slash-free-tail paths produced by
`filepath.Glob` here: the part after the last slash. -/
def goFilepathBase (s : String) : String :=
  String.mk ((s.data.reverse.takeWhile (fun c => c ≠ '/')).reverse)

/-- Substring occurrence: `needle` occurs contiguously inside `hay`. -/
def strInfix (needle hay : String) : Prop :=
  ∃ pre post : String, hay = pre ++ needle ++ post

/-- Translation of `formatLabels` from main.go: empty or odd-length input
renders as the empty string, otherwise alternating key/value tokens are
joined as a braced comma-separated list. -/
def formatLabels (labelPairs : List String) : String :=
  let l := labelPairs.length
  if l == 0 || l % 2 != 0 then ""
  else
    (labelPairs.enum.foldl (fun str p =>
      if p.1 % 2 == 0 then
        (if p.1 > 0 then str ++ "," else str) ++ p.2 ++ "=\x22"
      else
        str ++ p.2 ++ "\x22") "\x7b") ++ "\x7d"

/-- The value argument of `writeSingle` (Go `interface{}`), as the tagged
variant of the cases its type switch distinguishes: the integer family,
the float family (scaled by 1e6, see `goFmtFloat`), booleans, and any
other type (tagged with the Go type name used in the error message). -/
inductive GoValue : Type where
  | int (i : Int)
  | float (micros : Int)
  | bool (b : Bool)
  | unsupported (typeName : String)
deriving DecidableEq, Repr

/-- Translation of `valToString` from main.go. -/
def valToString : GoValue → Except String String
  | .int i => .ok (goItoa i)
  | .float m => .ok (goFmtFloat m)
  | .bool b => .ok (if b then "1" else "0")
  | .unsupported t => .error ("unsupported value type: " ++ t)

/-- Translation of `mkPairs` from main.go: flatten the labels map, in the
map iteration order given by the association list. -/
def mkPairs (m : List (String × String)) : List String :=
  m.foldr (fun kv acc => kv.1 :: kv.2 :: acc) []

/-- Translation of `writeSingle` from main.go, returning the string written
to the response (nothing is written when `valToString` fails; the callers
in `handleMetrics` ignore the returned error). -/
def writeSingle (typeStr name : String) (val : GoValue) (help : String)
    (labelPairs : List String) : String :=
  let header :=
    (if help.length > 0 then "# HELP " ++ name ++ " " ++ help ++ "\n" else "")
      ++ "# TYPE " ++ name ++ " " ++ typeStr ++ "\n"
  match valToString val with
  | .error _ => ""
  | .ok valStr => header ++ name ++ formatLabels labelPairs ++ " " ++ valStr ++ "\n\n"

/-- Translation of `writeGauge` from main.go. -/
def writeGauge (name : String) (val : GoValue) (help : String)
    (labelPairs : List String) : String :=
  writeSingle "gauge" name val help labelPairs

/-- Translation of `writeCounter` from main.go. -/
def writeCounter (name : String) (val : GoValue) (help : String)
    (labelPairs : List String) : String :=
  writeSingle "counter" name val help labelPairs

/-- Scale of a v5 measurement (`frontend.Scale` in the ziutek/dvb library):
decibel, counter, relative, or not-available. -/
inductive Scale : Type where
  | decibel
  | counter
  | relative
  | notAvail
deriving DecidableEq, Repr

/-- One v5 measurement parameter (`frontend.Param`): its scale together with
the values its `Decibel()` (as micro-units, see `goFmtFloat`) and
`Counter()` accessors would report. -/
structure Param : Type where
  scale : Scale
  decibelMicros : Int
  counter : Nat
deriving DecidableEq, Repr

/-- The v5 statistics structure (`frontend.Stat`): one list of parameters
per statistic, as used by `handleMetrics`. -/
structure Stat5 : Type where
  CNR : List Param
  Signal : List Param
  PreErrBit : List Param
  PreTotBit : List Param
  PostErrBit : List Param
  PostTotBit : List Param
  ErrBlk : List Param
  TotBlk : List Param
deriving DecidableEq, Repr

/-- Decidable equality for `Except` results. -/
instance instDecEqExcept {ε α : Type} [DecidableEq ε] [DecidableEq α] :
    DecidableEq (Except ε α)
  | .error e, .error f =>
    if h : e = f then .isTrue (by rw [h])
    else .isFalse (by intro c; cases c; exact h rfl)
  | .error _, .ok _ => .isFalse (by intro c; cases c)
  | .ok _, .error _ => .isFalse (by intro c; cases c)
  | .ok a, .ok b =>
    if h : a = b then .isTrue (by rw [h])
    else .isFalse (by intro c; cases c; exact h rfl)

/-- Outcomes of the hardware queries `handleMetrics` issues on one frontend
device handle: the v5 `Stat()` call, and the v3 `Status()`, `BER()`,
`SNR()`, `SignalStrength()` and `UncorrectedBlocks()` calls. An `Except`
error models the query returning a Go error; `status` and `ber`,
`uncorrectedBlocks` carry the uint32 bitmask/counter, `snr` and
`signalStrength` the signed int16 raw readings. -/
structure FrontendReadings : Type where
  stat : Except String Stat5
  status : Except String Nat
  ber : Except String Nat
  snr : Except String Int
  signalStrength : Except String Int
  uncorrectedBlocks : Except String Nat
deriving DecidableEq, Repr

/-- Status flag masks of the linux DVB v3 API as mirrored by the library:
`HasSignal`. -/
def hasSignalMask : Nat := 1
/-- Status flag `HasCarrier`. -/
def hasCarrierMask : Nat := 2
/-- Status flag `HasViterbi`. -/
def hasViterbiMask : Nat := 4
/-- Status flag `HasSync`. -/
def hasSyncMask : Nat := 8
/-- Status flag `HasLock`. -/
def hasLockMask : Nat := 16

/-- Bit-for-bit reinterpretation of a signed 16-bit value as unsigned, as
performed by `*(*uint16)(unsafe.Pointer(&snr))` in `handleMetrics`. -/
def uint16Bits (v : Int) : Nat := (v % 65536).toNat

/-- The percentage conversion `int(uint16bits) * 100 / 0xffff` applied to
the v3 SNR and signal-strength readings in `handleMetrics` (all operands
are non-negative, so Go `int` division is `Nat` division here). -/
def rawPercent (v : Int) : Nat := uint16Bits v * 100 / 65535

/-- The two-entry labels map `{adapter: Itoa(a.ID), frontend: Itoa(f.ID)}`
built at the top of the per-frontend loop, in one of its two possible Go
map iteration orders (`ord` selects which). -/
def labelsMap (ord : Bool) (aID fID : Int) : List (String × String) :=
  if ord then [("frontend", goItoa fID), ("adapter", goItoa aID)]
  else [("adapter", goItoa aID), ("frontend", goItoa fID)]

/-- Help text of the v5 CNR gauge. -/
def helpSnr5 : String := "Indicates the Signal to Noise ratio for the main carrier"
/-- Help text of the v5 signal-level gauge. -/
def helpSignal5 : String := "Signal strength level at the analog part of the tuner or of the demodd"
/-- Help text of the pre-FEC error-bit counter. -/
def helpPreErrBit : String := "Number of bit errors before the forward error correction (FEC) on the inner coding block (before Viterbi, LDPC or other inner code). Should be divided by _total_bit_counts."
/-- Help text of the pre-FEC total-bit counter. -/
def helpPreTotBit : String := "Amount of bits received before the inner code block, during the same period as _error_bit_count"
/-- Help text of the post-FEC error-bit counter. -/
def helpPostErrBit : String := "Number of bit errors after the forward error correction (FEC) done by inner code block (after Viterbi, LDPC or other inner code). Should be divided by _total_bit_counts."
/-- Help text of the post-FEC total-bit counter. -/
def helpPostTotBit : String := "Amount of bits received after the inner coding, during the same period as _error_bit_count"
/-- Help text of the error-block counter. -/
def helpErrBlk : String := "Number of block errors after the outer forward error correction coding (after Reed-Solomon or other outer code)."
/-- Help text of the total-block counter. -/
def helpTotBlk : String := "Total number of blocks received during the same period as _error_block_count"
/-- Help text of the has-signal gauge. -/
def helpHasSignal : String := "Frontend found something above the noise levell"
/-- Help text of the has-carrier gauge. -/
def helpHasCarrier : String := "Frontend found a DVB signal"
/-- Help text of the has-viterbi gauge. -/
def helpHasViterbi : String := "FEC is stable"
/-- Help text of the has-sync gauge. -/
def helpHasSync : String := "Frontend found sync bytes"
/-- Help text of the has-lock gauge. -/
def helpHasLock : String := "Frontend is receiving data"
/-- Help text of the v3 BER gauge. -/
def helpBer : String := "Bit error rate for the signal currently received/demodulated"
/-- Help text of the v3 SNR percentage gauge. -/
def helpSnrPercent : String := "Signal-to-noise ratio for the signal currently received by the front-end"
/-- Help text of the v3 signal-strength percentage gauge. -/
def helpSsPercent : String := "Signal strength value for the signal currently received by the front-end"
/-- Help text of the uncorrected-blocks counter. -/
def helpUncorrected : String := "Number of uncorrected blocks detected by the device driver during its lifetime"

/-- One v5 metric block of `handleMetrics`: `if len(l) > 0 { p := l[0];
if p.Scale() == sc { write... } }`, shared shape of the eight v5 blocks. -/
def v5block (lp : List String) (l : List Param) (sc : Scale)
    (typeStr name help : String) (val : Param → GoValue) : String :=
  match l with
  | [] => ""
  | p :: _ => if p.scale = sc then writeSingle typeStr name (val p) help lp else ""

/-- The v5 section of the per-frontend loop body of `handleMetrics`
(part_000 lines 128-187): on a `Stat()` error nothing is written (the
error is logged, see `logsFrontend`); otherwise the eight scale-guarded
blocks are written in order. -/
def renderV5 (lp : List String) (stat : Except String Stat5) : String :=
  match stat with
  | .error _ => ""
  | .ok s =>
    v5block lp s.CNR .decibel "gauge" "dvb_fe_snr" helpSnr5
      (fun p => .float p.decibelMicros)
    ++ v5block lp s.Signal .decibel "gauge" "dvb_fe_signal_strength_decibels" helpSignal5
      (fun p => .float p.decibelMicros)
    ++ v5block lp s.PreErrBit .counter "counter" "dvb_fe_pre_error_bit_count" helpPreErrBit
      (fun p => .int p.counter)
    ++ v5block lp s.PreTotBit .counter "counter" "dvb_fe_pre_total_bit_count" helpPreTotBit
      (fun p => .int p.counter)
    ++ v5block lp s.PostErrBit .counter "counter" "dvb_fe_post_error_bit_count" helpPostErrBit
      (fun p => .int p.counter)
    ++ v5block lp s.PostTotBit .counter "counter" "dvb_fe_post_total_bit_count" helpPostTotBit
      (fun p => .int p.counter)
    ++ v5block lp s.ErrBlk .counter "counter" "dvb_fe_error_block_count" helpErrBlk
      (fun p => .int p.counter)
    ++ v5block lp s.TotBlk .counter "counter" "dvb_fe_total_block_count" helpTotBlk
      (fun p => .int p.counter)

/-- The v3 section of the per-frontend loop body of `handleMetrics`
(part_000 lines 189-225): a `Status()` error logs and `continue`s, so it
skips everything below it for this frontend; otherwise the five status
flag gauges are written unconditionally and each of the four scalar
queries writes its metric exactly when that query succeeds. -/
def renderV3 (lp : List String) (r : FrontendReadings) : String :=
  match r.status with
  | .error _ => ""
  | .ok st =>
    writeGauge "dvb_fe_has_signal" (.bool (decide (0 < st.land hasSignalMask)))
      helpHasSignal lp
    ++ writeGauge "dvb_fe_has_carrier" (.bool (decide (0 < st.land hasCarrierMask)))
      helpHasCarrier lp
    ++ writeGauge "dvb_fe_has_viterbi" (.bool (decide (0 < st.land hasViterbiMask)))
      helpHasViterbi lp
    ++ writeGauge "dvb_fe_has_sync" (.bool (decide (0 < st.land hasSyncMask)))
      helpHasSync lp
    ++ writeGauge "dvb_fe_has_lock" (.bool (decide (0 < st.land hasLockMask)))
      helpHasLock lp
    ++ (match r.ber with
        | .error _ => ""
        | .ok ber => writeGauge "dvb_fe_ber" (.int ber) helpBer lp)
    ++ (match r.snr with
        | .error _ => ""
        | .ok snr => writeGauge "dvb_fe_snr_percent" (.int (rawPercent snr))
            helpSnrPercent lp)
    ++ (match r.signalStrength with
        | .error _ => ""
        | .ok ss => writeGauge "dvb_fe_signal_strength_percent" (.int (rawPercent ss))
            helpSsPercent lp)
    ++ (match r.uncorrectedBlocks with
        | .error _ => ""
        | .ok ub => writeCounter "dvb_fe_uncorrected_blocks_total" (.int ub)
            helpUncorrected lp)

/-- The whole per-frontend loop body of `handleMetrics`: labels map, v5
section, then v3 section (with its `continue` on a status error). -/
def renderFrontend (ord : Bool) (aID fID : Int) (r : FrontendReadings) : String :=
  let lp := mkPairs (labelsMap ord aID fID)
  renderV5 lp r.stat ++ renderV3 lp r

/-- A registered frontend entry (`frontendEntry` in main.go); the open
device handle is modelled by the outcomes the hardware queries on it
return during the request. -/
structure FrontendEntry : Type where
  ID : Int
  Name : String
  Device : FrontendReadings
deriving DecidableEq, Repr

/-- A registered adapter entry (`adapterEntry` in main.go); the frontends
map is carried in its Go iteration order. -/
structure AdapterEntry : Type where
  ID : Int
  Name : String
  Frontends : List (String × FrontendEntry)
deriving DecidableEq, Repr

/-- The global `adapters` map, in its Go iteration order. -/
abbrev Registry : Type := List (String × AdapterEntry)

/-- The parts of the HTTP response `handleMetrics` produces. -/
structure HttpResponse : Type where
  status : Nat
  contentType : String
  body : String
deriving DecidableEq, Repr

/-- Body written by the nested device loops of `handleMetrics`. -/
def metricsBody (ord : Bool) (reg : Registry) : String :=
  reg.foldr (fun a acc =>
    (a.2.Frontends.foldr (fun f acc2 =>
      renderFrontend ord a.2.ID f.2.ID f.2.Device ++ acc2) "") ++ acc) ""

/-- Translation of `handleMetrics`: sets Content-Type, writes header 200
unconditionally, streams the device loops' output, and returns nil (it
never surfaces an error as a non-200 status). -/
def handleMetrics (ord : Bool) (reg : Registry) : HttpResponse :=
  { status := 200, contentType := "text/plain", body := metricsBody ord reg }

/-- One structured `slog.Error` entry: message, adapter name, frontend
name, error text. -/
structure LogEntry : Type where
  msg : String
  adapter : String
  frontend : String
  err : String
deriving DecidableEq, Repr

/-- The `slog.Error` entries the per-frontend loop body emits: one for a
v5 `Stat()` error and one for a v3 `Status()` error. -/
def logsFrontend (adapterName frontendName : String) (r : FrontendReadings) :
    List LogEntry :=
  (match r.stat with
   | .error e => [⟨"error getting fe status via v5 API", adapterName, frontendName, e⟩]
   | .ok _ => [])
  ++ (match r.status with
      | .error e => [⟨"error getting fe status", adapterName, frontendName, e⟩]
      | .ok _ => [])

/-- All `slog.Error` entries emitted by one `handleMetrics` invocation. -/
def metricsLogs (reg : Registry) : List LogEntry :=
  reg.foldr (fun a acc =>
    (a.2.Frontends.foldr (fun f acc2 =>
      logsFrontend a.1 f.1 f.2.Device ++ acc2) []) ++ acc) []

/-- A frontend entry as built by the startup scan; the open read-only
handle is modelled by the path `frontend.OpenRO` was given. -/
structure DFrontendEntry : Type where
  ID : Int
  Name : String
  Device : String
deriving DecidableEq, Repr

/-- An adapter entry as built by the startup scan. -/
structure DAdapterEntry : Type where
  ID : Int
  Name : String
  Frontends : List (String × DFrontendEntry)
deriving DecidableEq, Repr

/-- The global `adapters` map as built by the startup scan (association
list in insertion order; Go map key semantics via `alistFind`). -/
abbrev DRegistry : Type := List (String × DAdapterEntry)

/-- Lookup in a Go map modelled as an association list. -/
def alistFind {β : Type} (k : String) : List (String × β) → Option β
  | [] => none
  | e :: t => if e.1 = k then some e.2 else alistFind k t

/-- Store under a key in a Go map modelled as an association list:
replace the existing entry or append a new one. -/
def alistSet {β : Type} (l : List (String × β)) (k : String) (v : β) :
    List (String × β) :=
  match l with
  | [] => [(k, v)]
  | e :: t => if e.1 = k then (k, v) :: t else e :: alistSet t k v

/-- The directory tree the two `filepath.Glob` calls of `main` observe:
each discovered adapter path paired with the frontend paths discovered
inside it. -/
abbrev ScanTree : Type := List (String × List String)

/-- The inner loop body of the startup scan for one discovered frontend
path (main.go lines 218-255): parse the numeric suffix of the base name
(log and skip the entry on failure), open the device read-only (exit code
2 on failure), then insert adapter and frontend entries into the registry
unless already present under the same path keys. Returns the updated
registry and the stderr lines printed, or the fatal exit. -/
def processFrontend (basePath adapterName : String) (adapterNum : Int)
    (openOK : String → Bool) (reg : DRegistry) (frontendName : String) :
    Except (Nat × String) (DRegistry × List String) :=
  match goAtoi (strDrop (goFilepathBase frontendName) 8) with
  | none =>
    .ok (reg, ["Invalid frontend number: " ++ strDrop (goFilepathBase frontendName) 8])
  | some frontendNum =>
    let fpath := basePath ++ "/adapter" ++ goItoa adapterNum
      ++ "/frontend" ++ goItoa frontendNum
    if openOK fpath then
      let a := (alistFind adapterName reg).getD
        ⟨adapterNum, adapterName, []⟩
      let a' := match alistFind frontendName a.Frontends with
        | some _ => a
        | none => { a with Frontends :=
            a.Frontends ++ [(frontendName, ⟨frontendNum, frontendName, fpath⟩)] }
      .ok (alistSet reg adapterName a', [])
    else
      .error (2, "Error opening frontend " ++ fpath)

/-- The frontend loop of the startup scan over one adapter's discovered
frontend paths, threading the registry and collecting stderr lines. -/
def scanFrontends (basePath adapterName : String) (adapterNum : Int)
    (openOK : String → Bool) :
    List String → DRegistry → Except (Nat × String) (DRegistry × List String)
  | [], reg => .ok (reg, [])
  | fp :: rest, reg =>
    match processFrontend basePath adapterName adapterNum openOK reg fp with
    | .error e => .error e
    | .ok (reg', errs) =>
      match scanFrontends basePath adapterName adapterNum openOK rest reg' with
      | .error e => .error e
      | .ok (reg'', errs') => .ok (reg'', errs ++ errs')

/-- The adapter loop of the startup scan (main.go lines 202-257): parse the
numeric suffix of each adapter path's base name (log and skip the adapter
on failure), then scan its frontends. -/
def scanAdapters (basePath : String) (openOK : String → Bool) :
    ScanTree → DRegistry → Except (Nat × String) (DRegistry × List String)
  | [], reg => .ok (reg, [])
  | (adapterName, fps) :: rest, reg =>
    match goAtoi (strDrop (goFilepathBase adapterName) 7) with
    | none =>
      match scanAdapters basePath openOK rest reg with
      | .error e => .error e
      | .ok (reg', errs) =>
        .ok (reg', ("Invalid adapter number: "
          ++ strDrop (goFilepathBase adapterName) 7) :: errs)
    | some adapterNum =>
      match scanFrontends basePath adapterName adapterNum openOK fps reg with
      | .error e => .error e
      | .ok (reg', errs) =>
        match scanAdapters basePath openOK rest reg' with
        | .error e => .error e
        | .ok (reg'', errs') => .ok (reg'', errs ++ errs')

/-- Result of the startup phase of `main`: either a fatal `os.Exit` with
its code and the stderr line printed, or the populated registry together
with all non-fatal stderr lines. -/
inductive StartupResult : Type where
  | exit (code : Nat) (msg : String)
  | running (reg : DRegistry) (stderrLines : List String)
deriving DecidableEq, Repr

/-- The startup phase of `main` (main.go lines 190-257): a missing base
directory prints to stderr and exits with code 1; otherwise the discovered
tree is scanned, and a device-open failure exits with code 2. -/
def startup (baseExists : Bool) (basePath : String) (tree : ScanTree)
    (openOK : String → Bool) : StartupResult :=
  if ¬ baseExists then
    .exit 1 ("Base path " ++ basePath ++ " does not exist")
  else
    match scanAdapters basePath openOK tree [] with
    | .error e => .exit e.1 e.2
    | .ok (reg, errs) => .running reg errs

/-- Concatenation of a list of strings, in order. -/
def strConcat : List String → String
  | [] => ""
  | s :: rest => s ++ strConcat rest

/-- Structured view of one metric record as the writer emits it:
exposition type, metric name, help text and value. -/
structure MetricRecord : Type where
  typ : String
  name : String
  help : String
  value : GoValue
deriving DecidableEq, Repr

/-- A metric record tagged with the device identity whose labels it is
rendered with. -/
structure TaggedRecord : Type where
  aID : Int
  fID : Int
  metric : MetricRecord
deriving DecidableEq, Repr

/-- Structured view of one v5 block: the record it emits, if any. -/
def v5opt (l : List Param) (sc : Scale) (mk : Param → MetricRecord) :
    Option MetricRecord :=
  match l with
  | [] => none
  | p :: _ => if p.scale = sc then some (mk p) else none

/-- Structured view of the v5 section: the records it emits, in order. -/
def collectV5 : Except String Stat5 → List MetricRecord
  | .error _ => []
  | .ok s =>
    (v5opt s.CNR .decibel fun p =>
      ⟨"gauge", "dvb_fe_snr", helpSnr5, .float p.decibelMicros⟩).toList
    ++ (v5opt s.Signal .decibel fun p =>
      ⟨"gauge", "dvb_fe_signal_strength_decibels", helpSignal5, .float p.decibelMicros⟩).toList
    ++ (v5opt s.PreErrBit .counter fun p =>
      ⟨"counter", "dvb_fe_pre_error_bit_count", helpPreErrBit, .int p.counter⟩).toList
    ++ (v5opt s.PreTotBit .counter fun p =>
      ⟨"counter", "dvb_fe_pre_total_bit_count", helpPreTotBit, .int p.counter⟩).toList
    ++ (v5opt s.PostErrBit .counter fun p =>
      ⟨"counter", "dvb_fe_post_error_bit_count", helpPostErrBit, .int p.counter⟩).toList
    ++ (v5opt s.PostTotBit .counter fun p =>
      ⟨"counter", "dvb_fe_post_total_bit_count", helpPostTotBit, .int p.counter⟩).toList
    ++ (v5opt s.ErrBlk .counter fun p =>
      ⟨"counter", "dvb_fe_error_block_count", helpErrBlk, .int p.counter⟩).toList
    ++ (v5opt s.TotBlk .counter fun p =>
      ⟨"counter", "dvb_fe_total_block_count", helpTotBlk, .int p.counter⟩).toList

/-- Structured view of the v3 section: the records it emits, in order
(nothing when the status query errors, mirroring the `continue`). -/
def collectV3 (r : FrontendReadings) : List MetricRecord :=
  match r.status with
  | .error _ => []
  | .ok st =>
    [⟨"gauge", "dvb_fe_has_signal", helpHasSignal, .bool (decide (0 < st.land hasSignalMask))⟩,
     ⟨"gauge", "dvb_fe_has_carrier", helpHasCarrier, .bool (decide (0 < st.land hasCarrierMask))⟩,
     ⟨"gauge", "dvb_fe_has_viterbi", helpHasViterbi, .bool (decide (0 < st.land hasViterbiMask))⟩,
     ⟨"gauge", "dvb_fe_has_sync", helpHasSync, .bool (decide (0 < st.land hasSyncMask))⟩,
     ⟨"gauge", "dvb_fe_has_lock", helpHasLock, .bool (decide (0 < st.land hasLockMask))⟩]
    ++ (match r.ber with
        | .error _ => []
        | .ok ber => [⟨"gauge", "dvb_fe_ber", helpBer, .int ber⟩])
    ++ (match r.snr with
        | .error _ => []
        | .ok snr => [⟨"gauge", "dvb_fe_snr_percent", helpSnrPercent, .int (rawPercent snr)⟩])
    ++ (match r.signalStrength with
        | .error _ => []
        | .ok ss => [⟨"gauge", "dvb_fe_signal_strength_percent", helpSsPercent, .int (rawPercent ss)⟩])
    ++ (match r.uncorrectedBlocks with
        | .error _ => []
        | .ok ub => [⟨"counter", "dvb_fe_uncorrected_blocks_total", helpUncorrected, .int ub⟩])

/-- Structured view of one frontend's contribution to the response. -/
def collectFrontend (aID fID : Int) (r : FrontendReadings) : List TaggedRecord :=
  (collectV5 r.stat ++ collectV3 r).map fun m => ⟨aID, fID, m⟩

/-- Structured view of the whole response: every record of every device,
in the iteration order carried by the registry. -/
def collectAll (reg : Registry) : List TaggedRecord :=
  reg.foldr (fun a acc =>
    (a.2.Frontends.foldr (fun f acc2 =>
      collectFrontend a.2.ID f.2.ID f.2.Device ++ acc2) []) ++ acc) []

/-- Textual rendering of one tagged record under labels map order `ord`. -/
def renderRecord (ord : Bool) (t : TaggedRecord) : String :=
  writeSingle t.metric.typ t.metric.name t.metric.value t.metric.help
    (mkPairs (labelsMap ord t.aID t.fID))

/-- Textual rendering of a list of tagged records. -/
def renderTagged (ord : Bool) (l : List TaggedRecord) : String :=
  strConcat (l.map (renderRecord ord))

/-- Textual rendering of plain records under a fixed label-pairs list. -/
def renderRecs (lp : List String) (l : List MetricRecord) : String :=
  strConcat (l.map fun m => writeSingle m.typ m.name m.value m.help lp)

/-- No newline character occurs in the string. -/
def charNoNL (s : String) : Prop := ∀ c ∈ s.data, c ≠ '\n'

/-- The no-newline predicate is decidable (it is a bounded check). -/
instance charNoNL_dec (s : String) : Decidable (charNoNL s) :=
  List.decidableBAll _ s.data

/-- The text of one exposition record: optional HELP line, TYPE line,
sample line, blank-line separator. -/
def recordStr (name typeStr help labels valStr : String) : String :=
  (if help.length > 0 then "# HELP " ++ name ++ " " ++ help ++ "\n" else "")
    ++ "# TYPE " ++ name ++ " " ++ typeStr ++ "\n"
    ++ name ++ labels ++ " " ++ valStr ++ "\n\n"

/-- A string is one well-formed exposition record: it has the record shape
with a non-empty newline-free name, a gauge or counter type, newline-free
help and label text, and a non-empty newline-free value. -/
def WFRecordStr (r : String) : Prop :=
  ∃ name typeStr help labels valStr,
    r = recordStr name typeStr help labels valStr ∧
    name ≠ "" ∧ charNoNL name ∧ charNoNL help ∧ charNoNL labels ∧
    (typeStr = "gauge" ∨ typeStr = "counter") ∧
    valStr ≠ "" ∧ charNoNL valStr

/-- Syntactically valid exposition stream: a (possibly empty)
concatenation of well-formed records. -/
inductive ValidExpo : String → Prop where
  | nil : ValidExpo ""
  | cons {r s : String} : WFRecordStr r → ValidExpo s → ValidExpo (r ++ s)

/-- The scan registry holds an adapter entry under `adapterName` whose
frontends map holds an entry under `frontendName`. -/
def hasEntry (reg : DRegistry) (adapterName frontendName : String) : Prop :=
  ∃ a, alistFind adapterName reg = some a ∧
    (alistFind frontendName a.Frontends).isSome = true

/-- The stderr lines of scanning one frontend path (nothing fatal). -/
def frontendErrs (fp : String) : List String :=
  match goAtoi (strDrop (goFilepathBase fp) 8) with
  | none => ["Invalid frontend number: " ++ strDrop (goFilepathBase fp) 8]
  | some _ => []

/-- The non-fatal stderr lines of scanning a tree, independent of the
registry being populated. -/
def treeErrs (tree : ScanTree) : List String :=
  tree.foldr (fun e acc =>
    (match goAtoi (strDrop (goFilepathBase e.1) 7) with
     | none => ["Invalid adapter number: " ++ strDrop (goFilepathBase e.1) 7]
     | some _ => e.2.foldr (fun fp a2 => frontendErrs fp ++ a2) []) ++ acc) []

/-- The per-adapter part of the metrics body: the inner frontend loop. -/
def adapterBody (ord : Bool) (a : AdapterEntry) : String :=
  a.Frontends.foldr (fun f acc2 => renderFrontend ord a.ID f.2.ID f.2.Device ++ acc2) ""

/-- The reconstructed device path `main` passes to `frontend.OpenRO`
(note: rebuilt from the parsed numbers, not the discovered path). -/
def fpathOf (basePath : String) (adapterNum frontendNum : Int) : String :=
  basePath ++ "/adapter" ++ goItoa adapterNum ++ "/frontend" ++ goItoa frontendNum

/-- Key uniqueness invariant of the scan registry: adapter path keys are
pairwise distinct and so are the frontend path keys within each adapter. -/
def nodupReg (reg : DRegistry) : Prop :=
  (reg.map Prod.fst).Nodup ∧ ∀ e ∈ reg, (e.2.Frontends.map Prod.fst).Nodup

/-- The emission condition of one v5 block: the statistic list is
non-empty and its first parameter reports the expected scale. -/
def v5cond (l : List Param) (sc : Scale) : Prop :=
  ∃ p, l.head? = some p ∧ p.scale = sc

/-- Concrete readings: both status queries fail while the BER query (and
the other scalar queries) would succeed. -/
def cexReadings1 : FrontendReadings :=
  ⟨.error "ioctl failed", .error "ioctl failed", .ok 7, .ok 123, .ok 5, .ok 2⟩

/-- Registry with the single device `cexReadings1`. -/
def cexRegistry1 : Registry :=
  [("/dev/dvb/adapter0", ⟨0, "/dev/dvb/adapter0",
    [("/dev/dvb/adapter0/frontend0",
      ⟨0, "/dev/dvb/adapter0/frontend0", cexReadings1⟩)]⟩)]

/-- Concrete readings: the v3 status query succeeds, everything else fails. -/
def cexReadings2 : FrontendReadings :=
  ⟨.error "e", .ok 16, .error "e", .error "e", .error "e", .error "e"⟩

/-- Registry with the single device `cexReadings2`. -/
def cexRegistry2 : Registry :=
  [("a0", ⟨0, "a0", [("f0", ⟨0, "f0", cexReadings2⟩)]⟩)]

/-- Concrete readings: status ok with all five flags set, all four scalar
queries succeed, the v5 stat query fails. -/
def demoReadings : FrontendReadings :=
  ⟨.error "stat failed", .ok 31, .ok 400, .ok 123, .ok (-1), .ok 9⟩

/-- Registry with the single device `demoReadings`. -/
def demoRegistry : Registry :=
  [("/dev/dvb/adapter0", ⟨0, "/dev/dvb/adapter0",
    [("/dev/dvb/adapter0/frontend0",
      ⟨0, "/dev/dvb/adapter0/frontend0", demoReadings⟩)]⟩)]

/-- A discovery tree with one malformed adapter entry, one well-formed
device, and one malformed frontend entry. -/
def demoTree : ScanTree :=
  [("/dev/dvb/adapterX", ["/dev/dvb/adapterX/frontend0"]),
   ("/dev/dvb/adapter0",
     ["/dev/dvb/adapter0/frontend0", "/dev/dvb/adapter0/frontendBAD"])]

/-- Open-device oracle that always succeeds. -/
def demoOpenOK : String → Bool := fun _ => true

/-- Open-device oracle that always fails. -/
def demoOpenFail : String → Bool := fun _ => false

/-- The registry produced by scanning `demoTree`. -/
def demoScanReg : DRegistry :=
  [("/dev/dvb/adapter0", ⟨0, "/dev/dvb/adapter0",
    [("/dev/dvb/adapter0/frontend0",
      ⟨0, "/dev/dvb/adapter0/frontend0", "/dev/dvb/adapter0/frontend0"⟩)]⟩)]

/-! Lemmas: decimal rendering. -/

theorem digitChar_toNat {d : Nat} (h : d < 10) : (digitChar d).toNat = 48 + d := by
  interval_cases d <;> decide

theorem digitChar_isDigit {d : Nat} (h : d < 10) : (digitChar d).isDigit = true := by
  interval_cases d <;> decide

theorem isDigit_toNat {c : Char} (h : c.isDigit = true) :
    48 ≤ c.toNat ∧ c.toNat ≤ 57 := by
  simp [Char.isDigit, Char.le_def] at h
  exact ⟨h.1, h.2⟩

theorem natDigitsF_fuel {f g n : Nat} (hf : n ≤ f) (hg : n ≤ g)
    (acc : List Char) : natDigitsF f n acc = natDigitsF g n acc := by
  induction f generalizing g n acc with
  | zero =>
    have hn : n = 0 := by omega
    subst hn
    cases g with
    | zero => rfl
    | succ g => rw [natDigitsF, natDigitsF, if_pos (by omega)]
  | succ f ih =>
    cases g with
    | zero =>
      have hn : n = 0 := by omega
      subst hn
      rw [natDigitsF, natDigitsF, if_pos (by omega)]
    | succ g =>
      rw [natDigitsF, natDigitsF]
      by_cases h : n < 10
      · rw [if_pos h, if_pos h]
      · rw [if_neg h, if_neg h]
        exact ih (by omega : n / 10 ≤ f)
          (by have := Nat.div_lt_self (show 0 < n by omega)
                (show 1 < 10 by omega); omega) _

theorem natDigits_eq (n : Nat) (acc : List Char) :
    natDigits n acc =
      if n < 10 then digitChar n :: acc
      else natDigits (n / 10) (digitChar (n % 10) :: acc) := by
  unfold natDigits
  by_cases h : n < 10
  · rw [if_pos h]
    cases hn : n with
    | zero => rfl
    | succ m => rw [natDigitsF, if_pos (by omega)]
  · rw [if_neg h]
    cases hn : n with
    | zero => omega
    | succ m =>
      rw [natDigitsF, if_neg (by omega)]
      exact natDigitsF_fuel
        (by have := Nat.div_lt_self (show 0 < n by omega)
              (show 1 < 10 by omega); omega)
        (le_refl _) _

theorem natDigits_ne_nil (n : Nat) (acc : List Char) : natDigits n acc ≠ [] := by
  induction n using Nat.strong_induction_on generalizing acc with
  | _ n ih =>
    rw [natDigits_eq]
    by_cases h : n < 10
    · simp [h]
    · rw [if_neg h]
      exact ih (n / 10) (Nat.div_lt_self (by omega) (by omega)) _

theorem natDigits_eq_append (n : Nat) (acc : List Char) :
    natDigits n acc = natDigits n [] ++ acc := by
  induction n using Nat.strong_induction_on generalizing acc with
  | _ n ih =>
    by_cases h : n < 10
    · rw [natDigits_eq, if_pos h, natDigits_eq, if_pos h]; rfl
    · have hd : n / 10 < n := Nat.div_lt_self (by omega) (by omega)
      conv_lhs => rw [natDigits_eq]
      rw [if_neg h, ih (n / 10) hd (digitChar (n % 10) :: acc)]
      conv_rhs => rw [natDigits_eq]
      rw [if_neg h, ih (n / 10) hd [digitChar (n % 10)], List.append_assoc]
      rfl

theorem natDigits_all_digits {n : Nat} {c : Char} (hc : c ∈ natDigits n []) :
    c.isDigit = true := by
  induction n using Nat.strong_induction_on with
  | _ n ih =>
    by_cases h : n < 10
    · rw [natDigits_eq, if_pos h] at hc
      rcases List.mem_singleton.mp hc with rfl
      exact digitChar_isDigit h
    · rw [natDigits_eq, if_neg h,
        natDigits_eq_append (n / 10) [digitChar (n % 10)]] at hc
      rcases List.mem_append.mp hc with h1 | h2
      · exact ih (n / 10) (Nat.div_lt_self (by omega) (by omega)) h1
      · rcases List.mem_singleton.mp h2 with rfl
        exact digitChar_isDigit (Nat.mod_lt _ (by omega))

theorem natDigits_val (n : Nat) :
    (natDigits n []).foldl (fun a c => a * 10 + (c.toNat - 48)) 0 = n := by
  induction n using Nat.strong_induction_on with
  | _ n ih =>
    by_cases h : n < 10
    · rw [natDigits_eq, if_pos h]
      simp [digitChar_toNat h]
    · rw [natDigits_eq, if_neg h,
        natDigits_eq_append (n / 10) [digitChar (n % 10)], List.foldl_append]
      rw [ih (n / 10) (Nat.div_lt_self (by omega) (by omega))]
      simp only [List.foldl_cons, List.foldl_nil,
        digitChar_toNat (Nat.mod_lt n (by omega))]
      omega

theorem natDigits_length_le {n k : Nat} (hk : 1 ≤ k) (hn : n < 10 ^ k) :
    (natDigits n []).length ≤ k := by
  induction n using Nat.strong_induction_on generalizing k with
  | _ n ih =>
    by_cases h : n < 10
    · rw [natDigits_eq, if_pos h]; simpa using hk
    · rw [natDigits_eq, if_neg h,
        natDigits_eq_append (n / 10) [digitChar (n % 10)], List.length_append]
      have hk2 : 2 ≤ k := by
        by_contra hc
        have : k = 1 := by omega
        subst this; simp at hn; omega
      have hdiv : n / 10 < 10 ^ (k - 1) := by
        have hpow : 10 ^ k = 10 ^ (k - 1) * 10 := by
          conv_lhs => rw [show k = (k - 1) + 1 by omega]
          rw [Nat.pow_succ]
        omega
      have := ih (n / 10) (Nat.div_lt_self (by omega) (by omega))
        (k := k - 1) (by omega) hdiv
      simp only [List.length_cons, List.length_nil]
      omega

theorem string_data_append (a b : String) : (a ++ b).data = a.data ++ b.data := rfl

theorem string_length_data (s : String) : s.length = s.data.length := rfl

theorem natToStr_data (n : Nat) : (natToStr n).data = natDigits n [] := rfl

theorem digitsToNat_natDigits (n : Nat) : digitsToNat (natDigits n []) = some n := by
  have hne : natDigits n [] ≠ [] := natDigits_ne_nil n []
  have hall : (natDigits n []).all Char.isDigit = true :=
    List.all_eq_true.mpr (fun c hc => natDigits_all_digits hc)
  unfold digitsToNat
  rw [if_neg (by simpa [List.isEmpty_iff] using hne), if_pos hall, natDigits_val]

theorem goAtoi_head_minus {s : String} {rest : List Char}
    (hd : s.data = '-' :: rest) :
    goAtoi s = (digitsToNat rest).map (fun n => -(Int.ofNat n)) := by
  unfold goAtoi; rw [hd]; rfl

theorem goAtoi_head_plain {s : String} {c : Char} {rest : List Char}
    (hd : s.data = c :: rest) (h1 : c ≠ '-') (h2 : c ≠ '+') :
    goAtoi s = (digitsToNat (c :: rest)).map (fun n => Int.ofNat n) := by
  unfold goAtoi
  rw [hd]
  split
  · next heq => injection heq with ha _; exact absurd ha h1
  · next heq => injection heq with ha _; exact absurd ha h2
  · rfl

theorem isDigit_ne {c d : Char} (h : c.isDigit = true)
    (hd : d.toNat < 48 ∨ 57 < d.toNat) : c ≠ d := by
  intro hcd
  rcases isDigit_toNat h with ⟨h1, h2⟩
  subst hcd
  omega

theorem goItoa_data_neg {i : Int} (hi : i < 0) :
    (goItoa i).data = '-' :: natDigits i.natAbs [] := by
  rw [goItoa, if_pos hi]; rfl

theorem goItoa_data_nonneg {i : Int} (hi : ¬ i < 0) :
    (goItoa i).data = natDigits i.natAbs [] := by
  rw [goItoa, if_neg hi, string_data_append]; rfl

theorem goItoa_chars {i : Int} {c : Char} (hc : c ∈ (goItoa i).data) :
    c.isDigit = true ∨ c = '-' := by
  by_cases hi : i < 0
  · rw [goItoa_data_neg hi] at hc
    rcases List.mem_cons.mp hc with rfl | hm
    · exact Or.inr rfl
    · exact Or.inl (natDigits_all_digits hm)
  · rw [goItoa_data_nonneg hi] at hc
    exact Or.inl (natDigits_all_digits hc)

theorem goItoa_ne_empty (i : Int) : goItoa i ≠ "" := by
  intro h
  have hdata : (goItoa i).data = [] := by rw [h]
  by_cases hi : i < 0
  · rw [goItoa_data_neg hi] at hdata; cases hdata
  · rw [goItoa_data_nonneg hi] at hdata
    exact natDigits_ne_nil _ _ hdata

/-- The base-10 rendering of the integer family round-trips through the
decimal parser: `goItoa` is the exact base-10 representation. -/
theorem goAtoi_goItoa (i : Int) : goAtoi (goItoa i) = some i := by
  by_cases hi : i < 0
  · rw [goAtoi_head_minus (goItoa_data_neg hi), digitsToNat_natDigits,
      Option.map_some']
    congr 1
    rw [Int.ofNat_eq_natCast]
    omega
  · obtain ⟨c, rest, hcr⟩ := List.exists_cons_of_ne_nil (natDigits_ne_nil i.natAbs [])
    have hcd : c.isDigit = true := natDigits_all_digits (hcr ▸ List.mem_cons_self c rest)
    have hdata : (goItoa i).data = c :: rest := by rw [goItoa_data_nonneg hi, hcr]
    rw [goAtoi_head_plain hdata (isDigit_ne hcd (by left; decide))
      (isDigit_ne hcd (by left; decide)), ← hcr, digitsToNat_natDigits,
      Option.map_some']
    congr 1
    rw [Int.ofNat_eq_natCast]
    omega

theorem zeroPad_length {w : Nat} {s : String} (h : s.length ≤ w) :
    (zeroPad w s).length = w := by
  have hdata : (zeroPad w s).data = List.replicate (w - s.length) '0' ++ s.data := rfl
  have hs : s.length = s.data.length := rfl
  rw [string_length_data, hdata, List.length_append, List.length_replicate]
  omega

theorem zeroPad_chars {w : Nat} {s : String} {c : Char}
    (hc : c ∈ (zeroPad w s).data) : c = '0' ∨ c ∈ s.data := by
  rw [zeroPad] at hc
  rcases List.mem_append.mp hc with h | h
  · exact Or.inl (List.eq_of_mem_replicate h)
  · exact Or.inr h

theorem natToStr_length_le {n k : Nat} (hk : 1 ≤ k) (hn : n < 10 ^ k) :
    (natToStr n).length ≤ k := by
  rw [string_length_data, natToStr_data]
  exact natDigits_length_le hk hn

/-! Lemmas: label rendering. -/

theorem mkPairs_cons (kv : String × String) (ps : List (String × String)) :
    mkPairs (kv :: ps) = kv.1 :: kv.2 :: mkPairs ps := rfl

theorem mkPairs_length (ps : List (String × String)) :
    (mkPairs ps).length = 2 * ps.length := by
  induction ps with
  | nil => rfl
  | cons a t ih => rw [mkPairs_cons, List.length_cons, List.length_cons, ih,
      List.length_cons]; omega

theorem strConcat_cons (x : String) (l : List String) :
    strConcat (x :: l) = x ++ strConcat l := rfl

theorem strConcat_append (a b : List String) :
    strConcat (a ++ b) = strConcat a ++ strConcat b := by
  induction a with
  | nil => rw [List.nil_append]; exact (String.empty_append _).symm
  | cons x t ih => rw [List.cons_append, strConcat_cons, strConcat_cons, ih,
      String.append_assoc]

theorem formatLabels_fold_aux (ps : List (String × String)) (i : Nat)
    (str : String) (hi : i % 2 = 0) (hpos : 0 < i) :
    List.foldl (fun str p =>
      if p.1 % 2 == 0 then
        (if p.1 > 0 then str ++ "," else str) ++ p.2 ++ "=\x22"
      else
        str ++ p.2 ++ "\x22") str (List.enumFrom i (mkPairs ps)) =
    str ++ strConcat (ps.map fun p => "," ++ p.1 ++ "=\x22" ++ p.2 ++ "\x22") := by
  induction ps generalizing i str with
  | nil =>
    simp only [mkPairs, List.foldr_nil, List.enumFrom_nil, List.foldl_nil,
      List.map_nil]
    exact (String.append_empty str).symm
  | cons a t ih =>
    rw [mkPairs_cons, List.enumFrom_cons, List.enumFrom_cons, List.foldl_cons,
      List.foldl_cons]
    have h1 : (i % 2 == 0) = true := by simp [hi]
    have h2 : ((i + 1) % 2 == 0) = false := by
      have : (i + 1) % 2 = 1 := by omega
      simp [this]
    have h3 : (i > 0) = True := by simp [hpos]
    simp only [h1, h2, h3, if_true, if_false, Bool.false_eq_true]
    rw [ih (i + 2) _ (by omega) (by omega)]
    simp only [List.map_cons, strConcat_cons, String.append_assoc]

theorem formatLabels_mkPairs (k v : String) (ps : List (String × String)) :
    formatLabels (mkPairs ((k, v) :: ps)) =
      "\x7b" ++ k ++ "=\x22" ++ v ++ "\x22"
        ++ strConcat (ps.map fun p => "," ++ p.1 ++ "=\x22" ++ p.2 ++ "\x22")
        ++ "\x7d" := by
  have hguard : ((mkPairs ((k, v) :: ps)).length == 0
      || (mkPairs ((k, v) :: ps)).length % 2 != 0) = false := by
    rw [mkPairs_length]
    simp only [List.length_cons, Bool.or_eq_false_iff]
    constructor
    · simp only [beq_eq_false_iff_ne, ne_eq]
      omega
    · simp only [bne_eq_false_iff_eq]
      omega
  rw [formatLabels]
  simp only [hguard, Bool.false_eq_true, if_false]
  rw [mkPairs_cons, List.enum]
  rw [List.enumFrom_cons, List.enumFrom_cons, List.foldl_cons, List.foldl_cons]
  show (List.foldl (fun (str : String) (p : Nat × String) =>
      if p.1 % 2 == 0 then
        (if p.1 > 0 then str ++ "," else str) ++ p.2 ++ "=\x22"
      else
        str ++ p.2 ++ "\x22")
      ("\x7b" ++ k ++ "=\x22" ++ v ++ "\x22")
      (List.enumFrom 2 (mkPairs ps))) ++ "\x7d" =
    "\x7b" ++ k ++ "=\x22" ++ v ++ "\x22"
      ++ strConcat (ps.map fun p => "," ++ p.1 ++ "=\x22" ++ p.2 ++ "\x22")
      ++ "\x7d"
  rw [formatLabels_fold_aux ps 2 _ (by omega) (by omega)]

theorem formatLabels_nil : formatLabels [] = "" := rfl

theorem formatLabels_odd {l : List String} (h : l.length % 2 = 1) :
    formatLabels l = "" := by
  rw [formatLabels]
  have hguard : (l.length == 0 || l.length % 2 != 0) = true := by
    simp only [Bool.or_eq_true, bne_iff_ne, ne_eq]
    right
    omega
  simp only [hguard, if_true]

/-! Lemmas: character classes and record well-formedness. -/

theorem charNoNL_append {a b : String} (ha : charNoNL a) (hb : charNoNL b) :
    charNoNL (a ++ b) := by
  intro c hc
  rcases List.mem_append.mp (by rwa [string_data_append] at hc) with h | h
  · exact ha c h
  · exact hb c h

theorem charNoNL_natToStr (n : Nat) : charNoNL (natToStr n) := by
  intro c hc
  exact isDigit_ne (natDigits_all_digits (by rwa [natToStr_data] at hc))
    (by left; decide)

theorem charNoNL_goItoa (i : Int) : charNoNL (goItoa i) := by
  intro c hc
  rcases goItoa_chars hc with h | rfl
  · exact isDigit_ne h (by left; decide)
  · decide

theorem charNoNL_zeroPad {w : Nat} {s : String} (h : charNoNL s) :
    charNoNL (zeroPad w s) := by
  intro c hc
  rcases zeroPad_chars hc with rfl | hm
  · decide
  · exact h c hm

theorem charNoNL_goFmtFloat (m : Int) : charNoNL (goFmtFloat m) := by
  unfold goFmtFloat
  refine charNoNL_append (charNoNL_append (charNoNL_append ?_ ?_) ?_) ?_
  · by_cases hm : m < 0 <;> simp only [hm, if_true, if_false] <;> decide
  · exact charNoNL_natToStr _
  · decide
  · exact charNoNL_zeroPad (charNoNL_natToStr _)

theorem goFmtFloat_ne_empty (m : Int) : goFmtFloat m ≠ "" := by
  intro h
  have hd : (goFmtFloat m).data = [] := by rw [h]
  unfold goFmtFloat at hd
  simp only [string_data_append, List.append_eq_nil] at hd
  have : ("." : String).data = [] := hd.1.2
  cases this

theorem string_ne_empty_of_data_ne_nil {s : String} (h : s.data ≠ []) :
    s ≠ "" := by
  intro he
  rw [he] at h
  exact h rfl

theorem goItoa_data_ne_nil (i : Int) : (goItoa i).data ≠ [] := by
  by_cases hi : i < 0
  · rw [goItoa_data_neg hi]; simp
  · rw [goItoa_data_nonneg hi]; exact natDigits_ne_nil _ _

theorem valToString_ok_props {val : GoValue} {valStr : String}
    (h : valToString val = .ok valStr) : valStr ≠ "" ∧ charNoNL valStr := by
  cases val with
  | int i =>
    cases h
    exact ⟨string_ne_empty_of_data_ne_nil (goItoa_data_ne_nil i), charNoNL_goItoa i⟩
  | float m =>
    cases h
    exact ⟨goFmtFloat_ne_empty m, charNoNL_goFmtFloat m⟩
  | bool b =>
    cases h
    cases b
    · exact ⟨by decide, by decide⟩
    · exact ⟨by decide, by decide⟩
  | unsupported t => cases h

theorem writeSingle_eq_recordStr {typeStr name help : String} {val : GoValue}
    {valStr : String} (lp : List String) (h : valToString val = .ok valStr) :
    writeSingle typeStr name val help lp =
      recordStr name typeStr help (formatLabels lp) valStr := by
  unfold writeSingle recordStr
  rw [h]

theorem writeSingle_of_error {typeStr name help : String} {val : GoValue}
    {e : String} (lp : List String) (h : valToString val = .error e) :
    writeSingle typeStr name val help lp = "" := by
  unfold writeSingle
  rw [h]

theorem validExpo_one {r : String} (h : WFRecordStr r) : ValidExpo r := by
  have := ValidExpo.cons h ValidExpo.nil
  rwa [String.append_empty] at this

theorem validExpo_append {a b : String} (ha : ValidExpo a) (hb : ValidExpo b) :
    ValidExpo (a ++ b) := by
  induction ha with
  | nil => rwa [String.empty_append]
  | cons hr _ ih => rw [String.append_assoc]; exact ValidExpo.cons hr ih

theorem validExpo_writeSingle {typeStr name help : String} {val : GoValue}
    (lp : List String) (htyp : typeStr = "gauge" ∨ typeStr = "counter")
    (hn : name ≠ "") (hnn : charNoNL name) (hh : charNoNL help)
    (hlpn : charNoNL (formatLabels lp)) :
    ValidExpo (writeSingle typeStr name val help lp) := by
  cases hv : valToString val with
  | error e => rw [writeSingle_of_error lp hv]; exact ValidExpo.nil
  | ok valStr =>
    rw [writeSingle_eq_recordStr lp hv]
    rcases valToString_ok_props hv with ⟨hv1, hv2⟩
    exact validExpo_one ⟨name, typeStr, help, formatLabels lp, valStr, rfl,
      hn, hnn, hh, hlpn, htyp, hv1, hv2⟩

theorem strConcat_nil : strConcat [] = "" := rfl

theorem charNoNL_append_iff {a b : String} :
    charNoNL (a ++ b) ↔ (charNoNL a ∧ charNoNL b) := by
  constructor
  · intro h
    exact ⟨fun c hc => h c (by rw [string_data_append]; exact List.mem_append.mpr (Or.inl hc)),
      fun c hc => h c (by rw [string_data_append]; exact List.mem_append.mpr (Or.inr hc))⟩
  · intro ⟨ha, hb⟩
    exact charNoNL_append ha hb

theorem charNoNL_formatLabels_labelsMap (ord : Bool) (aID fID : Int) :
    charNoNL (formatLabels (mkPairs (labelsMap ord aID fID))) := by
  cases ord <;>
    simp only [labelsMap, if_true, if_false, Bool.false_eq_true] <;>
    rw [formatLabels_mkPairs] <;>
    simp only [List.map_cons, List.map_nil, strConcat_cons, strConcat_nil,
      charNoNL_append_iff] <;>
    refine ⟨⟨⟨⟨⟨?_, ?_⟩, ?_⟩, ?_⟩, ⟨⟨⟨⟨⟨?_, ?_⟩, ?_⟩, ?_⟩, ?_⟩, ?_⟩⟩, ?_⟩ <;>
    first
      | decide
      | exact charNoNL_goItoa _

/-! Lemmas: validity of the rendered stream. -/

theorem validExpo_writeSingle2 (typeStr name help : String) (val : GoValue)
    (lp : List String) (htyp : typeStr = "gauge" ∨ typeStr = "counter")
    (hn : name ≠ "") (hnn : charNoNL name) (hh : charNoNL help)
    (hlpn : charNoNL (formatLabels lp)) :
    ValidExpo (writeSingle typeStr name val help lp) :=
  validExpo_writeSingle lp htyp hn hnn hh hlpn

theorem validExpo_v5block (lp : List String) (l : List Param) (sc : Scale)
    (typeStr name help : String) (val : Param → GoValue)
    (htyp : typeStr = "gauge" ∨ typeStr = "counter") (hn : name ≠ "")
    (hnn : charNoNL name) (hh : charNoNL help)
    (hlpn : charNoNL (formatLabels lp)) :
    ValidExpo (v5block lp l sc typeStr name help val) := by
  unfold v5block
  split
  · exact ValidExpo.nil
  · split
    · exact validExpo_writeSingle lp htyp hn hnn hh hlpn
    · exact ValidExpo.nil

set_option maxRecDepth 8192 in
theorem validExpo_renderV5 {lp : List String} (stat : Except String Stat5)
    (hlpn : charNoNL (formatLabels lp)) : ValidExpo (renderV5 lp stat) := by
  cases stat with
  | error e => exact ValidExpo.nil
  | ok stv =>
    unfold renderV5
    refine validExpo_append (validExpo_append (validExpo_append (validExpo_append
      (validExpo_append (validExpo_append (validExpo_append ?_ ?_) ?_) ?_) ?_)
      ?_) ?_) ?_ <;>
    exact validExpo_v5block _ _ _ _ _ _ _
      (by first | exact Or.inl rfl | exact Or.inr rfl)
      (by decide) (by decide) (by decide) hlpn

set_option maxRecDepth 8192 in
theorem validExpo_renderV3 {lp : List String} (r : FrontendReadings)
    (hlpn : charNoNL (formatLabels lp)) : ValidExpo (renderV3 lp r) := by
  unfold renderV3
  cases r.status with
  | error e => exact ValidExpo.nil
  | ok st =>
    refine validExpo_append (validExpo_append (validExpo_append (validExpo_append
      (validExpo_append (validExpo_append (validExpo_append (validExpo_append
      ?_ ?_) ?_) ?_) ?_) ?_) ?_) ?_) ?_
    · exact validExpo_writeSingle2 "gauge" "dvb_fe_has_signal" helpHasSignal _ lp
        (Or.inl rfl) (by decide) (by decide) (by decide) hlpn
    · exact validExpo_writeSingle2 "gauge" "dvb_fe_has_carrier" helpHasCarrier _ lp
        (Or.inl rfl) (by decide) (by decide) (by decide) hlpn
    · exact validExpo_writeSingle2 "gauge" "dvb_fe_has_viterbi" helpHasViterbi _ lp
        (Or.inl rfl) (by decide) (by decide) (by decide) hlpn
    · exact validExpo_writeSingle2 "gauge" "dvb_fe_has_sync" helpHasSync _ lp
        (Or.inl rfl) (by decide) (by decide) (by decide) hlpn
    · exact validExpo_writeSingle2 "gauge" "dvb_fe_has_lock" helpHasLock _ lp
        (Or.inl rfl) (by decide) (by decide) (by decide) hlpn
    · cases r.ber with
      | error e => exact ValidExpo.nil
      | ok b =>
        exact validExpo_writeSingle2 "gauge" "dvb_fe_ber" helpBer _ lp
          (Or.inl rfl) (by decide) (by decide) (by decide) hlpn
    · cases r.snr with
      | error e => exact ValidExpo.nil
      | ok v =>
        exact validExpo_writeSingle2 "gauge" "dvb_fe_snr_percent" helpSnrPercent
          _ lp (Or.inl rfl) (by decide) (by decide) (by decide) hlpn
    · cases r.signalStrength with
      | error e => exact ValidExpo.nil
      | ok v =>
        exact validExpo_writeSingle2 "gauge" "dvb_fe_signal_strength_percent"
          helpSsPercent _ lp (Or.inl rfl) (by decide) (by decide) (by decide) hlpn
    · cases r.uncorrectedBlocks with
      | error e => exact ValidExpo.nil
      | ok v =>
        exact validExpo_writeSingle2 "counter" "dvb_fe_uncorrected_blocks_total"
          helpUncorrected _ lp (Or.inr rfl) (by decide) (by decide) (by decide) hlpn

theorem validExpo_renderFrontend (ord : Bool) (aID fID : Int)
    (r : FrontendReadings) : ValidExpo (renderFrontend ord aID fID r) := by
  unfold renderFrontend
  exact validExpo_append
    (validExpo_renderV5 r.stat (charNoNL_formatLabels_labelsMap ord aID fID))
    (validExpo_renderV3 r (charNoNL_formatLabels_labelsMap ord aID fID))

theorem validExpo_metricsBody (ord : Bool) (reg : Registry) :
    ValidExpo (metricsBody ord reg) := by
  unfold metricsBody
  induction reg with
  | nil => exact ValidExpo.nil
  | cons a rest ih =>
    rw [List.foldr_cons]
    refine validExpo_append ?_ ih
    induction a.2.Frontends with
    | nil => exact ValidExpo.nil
    | cons f frest fih =>
      rw [List.foldr_cons]
      exact validExpo_append (validExpo_renderFrontend ord a.2.ID f.2.ID f.2.Device) fih

/-! Lemmas: structured view of the rendered stream. -/

theorem renderRecs_nil (lp : List String) : renderRecs lp [] = "" := rfl

theorem renderRecs_cons (lp : List String) (m : MetricRecord)
    (t : List MetricRecord) :
    renderRecs lp (m :: t) =
      writeSingle m.typ m.name m.value m.help lp ++ renderRecs lp t := rfl

theorem renderRecs_append (lp : List String) (a b : List MetricRecord) :
    renderRecs lp (a ++ b) = renderRecs lp a ++ renderRecs lp b := by
  unfold renderRecs
  rw [List.map_append, strConcat_append]

theorem v5block_eq_renderRecs (lp : List String) (l : List Param) (sc : Scale)
    (typeStr name help : String) (valGo : Param → GoValue) :
    v5block lp l sc typeStr name help valGo =
      renderRecs lp (v5opt l sc fun p => ⟨typeStr, name, help, valGo p⟩).toList := by
  unfold v5block v5opt
  cases l with
  | nil => rfl
  | cons p t =>
    by_cases hsc : p.scale = sc
    · simp only [if_pos hsc, Option.toList_some, renderRecs_cons, renderRecs_nil]
      exact (String.append_empty _).symm
    · simp only [if_neg hsc, Option.toList_none, renderRecs_nil]

theorem renderV5_eq_renderRecs (lp : List String) (stat : Except String Stat5) :
    renderV5 lp stat = renderRecs lp (collectV5 stat) := by
  cases stat with
  | error e => rfl
  | ok s =>
    unfold renderV5 collectV5
    simp only [v5block_eq_renderRecs, renderRecs_append, String.append_assoc]

theorem renderV3_eq_renderRecs (lp : List String) (r : FrontendReadings) :
    renderV3 lp r = renderRecs lp (collectV3 r) := by
  unfold renderV3 collectV3
  cases r.status with
  | error e => rfl
  | ok st =>
    cases r.ber <;> cases r.snr <;> cases r.signalStrength <;>
      cases r.uncorrectedBlocks <;>
      simp only [renderRecs_append, renderRecs_cons, renderRecs_nil,
        writeGauge, writeCounter, String.append_assoc, String.append_empty]

theorem renderTagged_nil (ord : Bool) : renderTagged ord [] = "" := rfl

theorem renderTagged_cons (ord : Bool) (t : TaggedRecord)
    (l : List TaggedRecord) :
    renderTagged ord (t :: l) = renderRecord ord t ++ renderTagged ord l := rfl

theorem renderTagged_append (ord : Bool) (a b : List TaggedRecord) :
    renderTagged ord (a ++ b) = renderTagged ord a ++ renderTagged ord b := by
  unfold renderTagged
  rw [List.map_append, strConcat_append]

theorem renderTagged_map_tag (ord : Bool) (aID fID : Int)
    (l : List MetricRecord) :
    renderTagged ord (l.map fun m => ⟨aID, fID, m⟩) =
      renderRecs (mkPairs (labelsMap ord aID fID)) l := by
  induction l with
  | nil => rfl
  | cons m t ih =>
    rw [List.map_cons, renderTagged_cons, ih, renderRecs_cons]
    rfl

theorem renderFrontend_eq_renderTagged (ord : Bool) (aID fID : Int)
    (r : FrontendReadings) :
    renderFrontend ord aID fID r = renderTagged ord (collectFrontend aID fID r) := by
  unfold renderFrontend collectFrontend
  show renderV5 (mkPairs (labelsMap ord aID fID)) r.stat
      ++ renderV3 (mkPairs (labelsMap ord aID fID)) r
    = renderTagged ord ((collectV5 r.stat ++ collectV3 r).map fun m => ⟨aID, fID, m⟩)
  rw [renderTagged_map_tag, renderRecs_append, renderV5_eq_renderRecs,
    renderV3_eq_renderRecs]

theorem metricsBody_eq_renderTagged (ord : Bool) (reg : Registry) :
    metricsBody ord reg = renderTagged ord (collectAll reg) := by
  unfold metricsBody collectAll
  induction reg with
  | nil => rfl
  | cons a rest ih =>
    rw [List.foldr_cons, List.foldr_cons, renderTagged_append, ih]
    have hfe : ∀ fl : List (String × FrontendEntry),
        fl.foldr (fun f acc2 =>
          renderFrontend ord a.2.ID f.2.ID f.2.Device ++ acc2) "" =
        renderTagged ord (fl.foldr (fun f acc2 =>
          collectFrontend a.2.ID f.2.ID f.2.Device ++ acc2) []) := by
      intro fl
      induction fl with
      | nil => rfl
      | cons f ft fih =>
        rw [List.foldr_cons, List.foldr_cons, renderTagged_append, fih,
          renderFrontend_eq_renderTagged]
    rw [hfe]

/-! Lemmas: output length is independent of the labels map order. -/

theorem string_length_append (a b : String) :
    (a ++ b).length = a.length + b.length := by
  rw [string_length_data, string_length_data, string_length_data,
    string_data_append, List.length_append]

theorem formatLabels_labelsMap_length (aID fID : Int) :
    (formatLabels (mkPairs (labelsMap true aID fID))).length =
      (formatLabels (mkPairs (labelsMap false aID fID))).length := by
  simp only [labelsMap, if_true, if_false, Bool.false_eq_true]
  rw [formatLabels_mkPairs, formatLabels_mkPairs]
  simp only [List.map_cons, List.map_nil, strConcat_cons, strConcat_nil,
    string_length_append, String.append_empty]
  have h1 : ("\x7b" : String).length = 1 := rfl
  have h2 : ("\x7d" : String).length = 1 := rfl
  have h3 : ("adapter" : String).length = 7 := rfl
  have h4 : ("frontend" : String).length = 8 := rfl
  have h5 : ("=\x22" : String).length = 2 := rfl
  have h6 : ("\x22" : String).length = 1 := rfl
  have h7 : ("," : String).length = 1 := rfl
  omega

theorem renderRecord_length_ord (t : TaggedRecord) :
    (renderRecord true t).length = (renderRecord false t).length := by
  unfold renderRecord writeSingle
  cases hv : valToString t.metric.value with
  | error e => rfl
  | ok vs =>
    simp only [string_length_append]
    rw [formatLabels_labelsMap_length]

theorem renderTagged_length_ord (l : List TaggedRecord) :
    (renderTagged true l).length = (renderTagged false l).length := by
  induction l with
  | nil => rfl
  | cons t rest ih =>
    rw [renderTagged_cons, renderTagged_cons, string_length_append,
      string_length_append, renderRecord_length_ord t, ih]

/-! Lemmas: the v3 percentage conversion. -/

theorem uint16Bits_le (v : Int) : uint16Bits v ≤ 65535 := by
  unfold uint16Bits
  omega

theorem uint16Bits_cases {v : Int} (hlo : -32768 ≤ v) (hhi : v < 32768) :
    uint16Bits v = if 0 ≤ v then v.toNat else (v + 65536).toNat := by
  unfold uint16Bits
  by_cases h : 0 ≤ v
  · rw [if_pos h]; omega
  · rw [if_neg h]; omega

theorem rawPercent_le_100 (v : Int) : rawPercent v ≤ 100 := by
  unfold rawPercent
  have h1 : uint16Bits v * 100 ≤ 65535 * 100 :=
    Nat.mul_le_mul_right 100 (uint16Bits_le v)
  calc uint16Bits v * 100 / 65535 ≤ 65535 * 100 / 65535 :=
        Nat.div_le_div_right h1
    _ = 100 := by decide

theorem rawPercent_eq_formula (v : Int) :
    rawPercent v = uint16Bits v * 100 / 65535 := rfl

/-! Lemmas: isolation of devices and readings in the body. -/

theorem strInfix_self (b : String) : strInfix b b :=
  ⟨"", "", by rw [String.empty_append, String.append_empty]⟩

theorem strInfix_appendL {b y : String} (x : String) (h : strInfix b y) :
    strInfix b (x ++ y) := by
  obtain ⟨p, q, rfl⟩ := h
  exact ⟨x ++ p, q, by simp [String.append_assoc]⟩

theorem strInfix_appendR {b x : String} (y : String) (h : strInfix b x) :
    strInfix b (x ++ y) := by
  obtain ⟨p, q, rfl⟩ := h
  exact ⟨p, q ++ y, by simp [String.append_assoc]⟩

theorem strInfix_trans {a b c : String} (h1 : strInfix a b)
    (h2 : strInfix b c) : strInfix a c := by
  obtain ⟨p, q, rfl⟩ := h1
  obtain ⟨u, w, rfl⟩ := h2
  exact ⟨u ++ p, q ++ w, by simp [String.append_assoc]⟩

theorem metricsBody_cons (ord : Bool) (x : String × AdapterEntry)
    (rest : Registry) :
    metricsBody ord (x :: rest) = adapterBody ord x.2 ++ metricsBody ord rest := rfl

theorem strFoldr_init {α : Type} (g : α → String) (l : List α) (init : String) :
    l.foldr (fun x acc => g x ++ acc) init =
      l.foldr (fun x acc => g x ++ acc) "" ++ init := by
  induction l with
  | nil => rw [List.foldr_nil, List.foldr_nil, String.empty_append]
  | cons x t ih => rw [List.foldr_cons, List.foldr_cons, ih, String.append_assoc]

theorem metricsBody_split (ord : Bool) (pre post : Registry)
    (x : String × AdapterEntry) :
    metricsBody ord (pre ++ x :: post) =
      metricsBody ord pre ++ (adapterBody ord x.2 ++ metricsBody ord post) := by
  unfold metricsBody
  rw [List.foldr_append, List.foldr_cons]
  exact strFoldr_init _ pre _

theorem adapterBody_split (ord : Bool) (a : AdapterEntry)
    (fpre fpost : List (String × FrontendEntry)) (x : String × FrontendEntry)
    (hfr : a.Frontends = fpre ++ x :: fpost) :
    adapterBody ord a =
      (fpre.foldr (fun f acc2 => renderFrontend ord a.ID f.2.ID f.2.Device ++ acc2) "")
        ++ (renderFrontend ord a.ID x.2.ID x.2.Device
          ++ fpost.foldr (fun f acc2 => renderFrontend ord a.ID f.2.ID f.2.Device ++ acc2) "") := by
  unfold adapterBody
  rw [hfr, List.foldr_append, List.foldr_cons]
  exact strFoldr_init _ fpre _

theorem metricsBody_device (ord : Bool) {reg : Registry} {an : String}
    {a : AdapterEntry} (ha : (an, a) ∈ reg) {fn : String} {f : FrontendEntry}
    (hf : (fn, f) ∈ a.Frontends) :
    strInfix (renderFrontend ord a.ID f.ID f.Device) (metricsBody ord reg) := by
  obtain ⟨pre, post, hreg⟩ := List.append_of_mem ha
  obtain ⟨fpre, fpost, hfr⟩ := List.append_of_mem hf
  subst hreg
  rw [metricsBody_split, adapterBody_split ord a fpre fpost (fn, f) hfr]
  exact strInfix_appendL _ (strInfix_appendR _ (strInfix_appendL _
    (strInfix_appendR _ (strInfix_self _))))

theorem renderV3_of_status_error {lp : List String} {r : FrontendReadings}
    {e : String} (hst : r.status = .error e) : renderV3 lp r = "" := by
  unfold renderV3
  rw [hst]

theorem renderFrontend_of_status_error {ord : Bool} {aID fID : Int}
    {r : FrontendReadings} {e : String} (hst : r.status = .error e) :
    renderFrontend ord aID fID r =
      renderV5 (mkPairs (labelsMap ord aID fID)) r.stat := by
  unfold renderFrontend
  show renderV5 (mkPairs (labelsMap ord aID fID)) r.stat
      ++ renderV3 (mkPairs (labelsMap ord aID fID)) r
    = renderV5 (mkPairs (labelsMap ord aID fID)) r.stat
  rw [renderV3_of_status_error hst, String.append_empty]

theorem renderV3_has_ber {lp : List String} {r : FrontendReadings} {st : Nat}
    {b : Nat} (hst : r.status = .ok st) (hb : r.ber = .ok b) :
    strInfix (writeGauge "dvb_fe_ber" (.int b) helpBer lp) (renderV3 lp r) := by
  unfold renderV3
  rw [hst, hb]
  exact strInfix_appendR _ (strInfix_appendR _ (strInfix_appendR _
    (strInfix_appendL _ (strInfix_self _))))

theorem renderV3_has_snr {lp : List String} {r : FrontendReadings} {st : Nat}
    {v : Int} (hst : r.status = .ok st) (hv : r.snr = .ok v) :
    strInfix (writeGauge "dvb_fe_snr_percent" (.int (rawPercent v))
      helpSnrPercent lp) (renderV3 lp r) := by
  unfold renderV3
  rw [hst, hv]
  exact strInfix_appendR _ (strInfix_appendR _ (strInfix_appendL _
    (strInfix_self _)))

theorem renderV3_has_ss {lp : List String} {r : FrontendReadings} {st : Nat}
    {v : Int} (hst : r.status = .ok st) (hv : r.signalStrength = .ok v) :
    strInfix (writeGauge "dvb_fe_signal_strength_percent"
      (.int (rawPercent v)) helpSsPercent lp) (renderV3 lp r) := by
  unfold renderV3
  rw [hst, hv]
  exact strInfix_appendR _ (strInfix_appendL _ (strInfix_self _))

theorem renderV3_has_ub {lp : List String} {r : FrontendReadings} {st : Nat}
    {v : Nat} (hst : r.status = .ok st) (hv : r.uncorrectedBlocks = .ok v) :
    strInfix (writeCounter "dvb_fe_uncorrected_blocks_total" (.int v)
      helpUncorrected lp) (renderV3 lp r) := by
  unfold renderV3
  rw [hst, hv]
  exact strInfix_appendL _ (strInfix_self _)

theorem renderFrontend_has_v3 {ord : Bool} {aID fID : Int}
    {r : FrontendReadings} {b : String}
    (h : strInfix b (renderV3 (mkPairs (labelsMap ord aID fID)) r)) :
    strInfix b (renderFrontend ord aID fID r) := by
  unfold renderFrontend
  show strInfix b (renderV5 (mkPairs (labelsMap ord aID fID)) r.stat
    ++ renderV3 (mkPairs (labelsMap ord aID fID)) r)
  exact strInfix_appendL _ h

/-! Lemmas: the startup scan. -/

theorem alistFind_set_self {β : Type} (l : List (String × β)) (k : String)
    (v : β) : alistFind k (alistSet l k v) = some v := by
  induction l with
  | nil => simp [alistSet, alistFind]
  | cons e t ih =>
    by_cases h : e.1 = k
    · simp [alistSet, h, alistFind]
    · simp only [alistSet, if_neg h]
      rw [alistFind, if_neg h]
      exact ih

theorem alistFind_set_ne {β : Type} (l : List (String × β)) {k k' : String}
    (v : β) (h : k' ≠ k) : alistFind k' (alistSet l k v) = alistFind k' l := by
  induction l with
  | nil =>
    simp only [alistSet, alistFind]
    rw [if_neg (fun hc : k = k' => h hc.symm)]
  | cons e t ih =>
    by_cases he : e.1 = k
    · subst he
      simp only [alistSet, if_pos rfl, alistFind]
      rw [if_neg (fun hc : e.1 = k' => h hc.symm),
        if_neg (fun hc : e.1 = k' => h hc.symm)]
    · simp only [alistSet, if_neg he, alistFind]
      by_cases hk : e.1 = k'
      · rw [if_pos hk, if_pos hk]
      · rw [if_neg hk, if_neg hk]
        exact ih

theorem alistSet_self {β : Type} {l : List (String × β)} {k : String} {v : β}
    (h : alistFind k l = some v) : alistSet l k v = l := by
  induction l with
  | nil => cases h
  | cons e t ih =>
    rw [alistFind] at h
    by_cases he : e.1 = k
    · rw [if_pos he] at h
      cases h
      subst he
      simp [alistSet]
    · rw [if_neg he] at h
      simp only [alistSet, if_neg he]
      rw [ih h]

theorem alistFind_eq_none_iff {β : Type} (l : List (String × β)) (k : String) :
    alistFind k l = none ↔ k ∉ l.map Prod.fst := by
  induction l with
  | nil => simp [alistFind]
  | cons e t ih =>
    rw [alistFind]
    by_cases he : e.1 = k
    · simp [he]
    · simp only [if_neg he, ih, List.map_cons, List.mem_cons]
      constructor
      · intro h hc
        rcases hc with hc | hc
        · exact he hc.symm
        · exact h hc
      · intro h hc
        exact h (Or.inr hc)

theorem alistFind_append_some {β : Type} {l : List (String × β)} {k : String}
    {v : β} (h : alistFind k l = some v) (l2 : List (String × β)) :
    alistFind k (l ++ l2) = some v := by
  induction l with
  | nil => cases h
  | cons e t ih =>
    rw [alistFind] at h
    rw [List.cons_append, alistFind]
    by_cases he : e.1 = k
    · rwa [if_pos he] at h ⊢
    · rw [if_neg he] at h ⊢
      exact ih h

theorem alistFind_append_self {β : Type} {l : List (String × β)} {k : String}
    (h : alistFind k l = none) (v : β) :
    alistFind k (l ++ [(k, v)]) = some v := by
  induction l with
  | nil => simp [alistFind]
  | cons e t ih =>
    rw [alistFind] at h
    rw [List.cons_append, alistFind]
    by_cases he : e.1 = k
    · rw [if_pos he] at h; cases h
    · rw [if_neg he] at h ⊢
      exact ih h

theorem alistSet_keys_present {β : Type} {l : List (String × β)} {k : String}
    (v : β) (h : (alistFind k l).isSome = true) :
    (alistSet l k v).map Prod.fst = l.map Prod.fst := by
  induction l with
  | nil => rw [alistFind] at h; cases h
  | cons e t ih =>
    rw [alistFind] at h
    by_cases he : e.1 = k
    · simp [alistSet, he]
    · rw [if_neg he] at h
      simp only [alistSet, if_neg he, List.map_cons, ih h]

theorem alistSet_keys_absent {β : Type} {l : List (String × β)} {k : String}
    (v : β) (h : alistFind k l = none) :
    (alistSet l k v).map Prod.fst = l.map Prod.fst ++ [k] := by
  induction l with
  | nil => simp [alistSet]
  | cons e t ih =>
    rw [alistFind] at h
    by_cases he : e.1 = k
    · rw [if_pos he] at h; cases h
    · rw [if_neg he] at h
      simp only [alistSet, if_neg he, List.map_cons, ih h, List.cons_append]

theorem mem_alistSet {β : Type} {l : List (String × β)} {k : String} {v : β}
    {x : String × β} (h : x ∈ alistSet l k v) : x = (k, v) ∨ x ∈ l := by
  induction l with
  | nil => simp [alistSet] at h; exact Or.inl h
  | cons e t ih =>
    by_cases he : e.1 = k
    · simp only [alistSet, if_pos he, List.mem_cons] at h
      rcases h with h | h
      · exact Or.inl h
      · exact Or.inr (List.mem_cons_of_mem e h)
    · simp only [alistSet, if_neg he, List.mem_cons] at h
      rcases h with h | h
      · exact Or.inr (h ▸ List.mem_cons_self e t)
      · rcases ih h with h2 | h2
        · exact Or.inl h2
        · exact Or.inr (List.mem_cons_of_mem e h2)

theorem alistFind_some_mem {β : Type} {l : List (String × β)} {k : String}
    {v : β} (h : alistFind k l = some v) : (k, v) ∈ l := by
  induction l with
  | nil => cases h
  | cons e t ih =>
    rw [alistFind] at h
    by_cases he : e.1 = k
    · rw [if_pos he] at h
      cases h
      subst he
      exact List.mem_cons_self e t
    · rw [if_neg he] at h
      exact List.mem_cons_of_mem e (ih h)

theorem nodup_keys_append {β : Type} {l : List (String × β)} {k : String}
    (v : β) (hn : (l.map Prod.fst).Nodup) (hk : alistFind k l = none) :
    ((l ++ [(k, v)]).map Prod.fst).Nodup := by
  rw [List.map_append]
  simp only [List.map_cons, List.map_nil]
  rw [List.nodup_append]
  refine ⟨hn, List.nodup_singleton k, ?_⟩
  intro x hx
  simp only [List.mem_singleton]
  intro hc
  exact (alistFind_eq_none_iff l k).mp hk (hc ▸ hx)

theorem processFrontend_malformed {fp : String} (bp an : String) (anum : Int)
    (openOK : String → Bool) (reg : DRegistry)
    (h : goAtoi (strDrop (goFilepathBase fp) 8) = none) :
    processFrontend bp an anum openOK reg fp =
      .ok (reg, ["Invalid frontend number: " ++ strDrop (goFilepathBase fp) 8]) := by
  unfold processFrontend
  rw [h]

theorem processFrontend_open_fail {fp : String} {fnum : Int} (bp an : String)
    (anum : Int) {openOK : String → Bool} (reg : DRegistry)
    (h : goAtoi (strDrop (goFilepathBase fp) 8) = some fnum)
    (ho : openOK (fpathOf bp anum fnum) = false) :
    processFrontend bp an anum openOK reg fp =
      .error (2, "Error opening frontend " ++ fpathOf bp anum fnum) := by
  unfold processFrontend
  rw [h]
  unfold fpathOf at ho
  simp only [ho, Bool.false_eq_true, if_false]
  rfl

theorem processFrontend_of_hasEntry {fp : String} {fnum : Int} {bp an : String}
    {anum : Int} {openOK : String → Bool} {reg : DRegistry}
    (h : goAtoi (strDrop (goFilepathBase fp) 8) = some fnum)
    (ho : openOK (fpathOf bp anum fnum) = true) (hent : hasEntry reg an fp) :
    processFrontend bp an anum openOK reg fp = .ok (reg, []) := by
  obtain ⟨a0, hfind, hsome⟩ := hent
  obtain ⟨w, hw⟩ := Option.isSome_iff_exists.mp hsome
  unfold processFrontend
  rw [h]
  unfold fpathOf at ho
  simp only [ho, if_true, hfind, Option.getD_some, hw]
  rw [alistSet_self hfind]

theorem processFrontend_error_code {fp bp an : String} {anum : Int}
    {openOK : String → Bool} {reg : DRegistry} {e : Nat × String}
    (hstep : processFrontend bp an anum openOK reg fp = .error e) : e.1 = 2 := by
  unfold processFrontend at hstep
  cases hatoi : goAtoi (strDrop (goFilepathBase fp) 8) with
  | none => rw [hatoi] at hstep; cases hstep
  | some fnum =>
    rw [hatoi] at hstep
    dsimp only at hstep
    split at hstep
    · cases hstep
    · cases hstep
      rfl

theorem processFrontend_ok_openOK {fp bp an : String} {anum : Int}
    {openOK : String → Bool} {reg reg2 : DRegistry} {errs : List String}
    {fnum : Int} (h : goAtoi (strDrop (goFilepathBase fp) 8) = some fnum)
    (hstep : processFrontend bp an anum openOK reg fp = .ok (reg2, errs)) :
    openOK (fpathOf bp anum fnum) = true := by
  unfold processFrontend at hstep
  rw [h] at hstep
  dsimp only at hstep
  split at hstep
  · next hcond => unfold fpathOf; exact hcond
  · cases hstep

theorem processFrontend_progress {fp bp an : String} {anum : Int}
    {openOK : String → Bool} {reg reg2 : DRegistry} {errs : List String}
    {fnum : Int} (h : goAtoi (strDrop (goFilepathBase fp) 8) = some fnum)
    (hstep : processFrontend bp an anum openOK reg fp = .ok (reg2, errs)) :
    hasEntry reg2 an fp ∧ errs = [] := by
  unfold processFrontend at hstep
  rw [h] at hstep
  dsimp only at hstep
  split at hstep
  · cases hstep
    refine ⟨?_, rfl⟩
    refine ⟨_, alistFind_set_self _ _ _, ?_⟩
    split
    · next hfound => rw [hfound]; rfl
    · next hnone => rw [alistFind_append_self hnone]; rfl
  · cases hstep

theorem processFrontend_mono {fp bp an : String} {anum : Int}
    {openOK : String → Bool} {reg reg2 : DRegistry} {errs : List String}
    (hstep : processFrontend bp an anum openOK reg fp = .ok (reg2, errs))
    {an2 fn2 : String} (hent : hasEntry reg an2 fn2) : hasEntry reg2 an2 fn2 := by
  unfold processFrontend at hstep
  cases hatoi : goAtoi (strDrop (goFilepathBase fp) 8) with
  | none =>
    rw [hatoi] at hstep
    cases hstep
    exact hent
  | some fnum =>
    rw [hatoi] at hstep
    dsimp only at hstep
    split at hstep
    · cases hstep
      obtain ⟨a2, hfind2, hsome2⟩ := hent
      by_cases han : an2 = an
      · subst han
        refine ⟨_, alistFind_set_self _ _ _, ?_⟩
        rw [hfind2, Option.getD_some]
        obtain ⟨w2, hw2⟩ := Option.isSome_iff_exists.mp hsome2
        split
        · exact hsome2
        · rw [alistFind_append_some hw2]
          rfl
      · exact ⟨a2, by rw [alistFind_set_ne _ _ han]; exact hfind2, hsome2⟩
    · cases hstep

theorem processFrontend_nodup {fp bp an : String} {anum : Int}
    {openOK : String → Bool} {reg reg2 : DRegistry} {errs : List String}
    (hstep : processFrontend bp an anum openOK reg fp = .ok (reg2, errs))
    (hn : nodupReg reg) : nodupReg reg2 := by
  unfold processFrontend at hstep
  cases hatoi : goAtoi (strDrop (goFilepathBase fp) 8) with
  | none =>
    rw [hatoi] at hstep
    cases hstep
    exact hn
  | some fnum =>
    rw [hatoi] at hstep
    dsimp only at hstep
    split at hstep
    · cases hstep
      cases hfind : alistFind an reg with
      | some a0 =>
        have hmem : (an, a0) ∈ reg := alistFind_some_mem hfind
        constructor
        · rw [alistSet_keys_present _ (by rw [hfind]; rfl)]
          exact hn.1
        · intro e he
          rcases mem_alistSet he with rfl | he2
          · simp only [Option.getD_some]
            split
            · exact hn.2 _ hmem
            · next hnone =>
              exact nodup_keys_append _ (hn.2 _ hmem) hnone
          · exact hn.2 _ he2
      | none =>
        constructor
        · rw [alistSet_keys_absent _ hfind]
          rw [List.nodup_append]
          refine ⟨hn.1, List.nodup_singleton an, ?_⟩
          intro x hx
          simp only [List.mem_singleton]
          intro hc
          exact (alistFind_eq_none_iff reg an).mp hfind (hc ▸ hx)
        · intro e he
          rcases mem_alistSet he with rfl | he2
          · simp only [Option.getD_none]
            split
            · next hfound => cases hfound
            · next hnone => simp
          · exact hn.2 _ he2
    · cases hstep

theorem scanFrontends_error_code {bp an : String} {anum : Int}
    {openOK : String → Bool} {fps : List String} {reg : DRegistry}
    {e : Nat × String}
    (h : scanFrontends bp an anum openOK fps reg = .error e) : e.1 = 2 := by
  induction fps generalizing reg with
  | nil => rw [scanFrontends] at h; cases h
  | cons fp rest ih =>
    rw [scanFrontends] at h
    cases hstep : processFrontend bp an anum openOK reg fp with
    | error e2 =>
      rw [hstep] at h
      cases h
      exact processFrontend_error_code hstep
    | ok pr =>
      obtain ⟨reg1, errs1⟩ := pr
      rw [hstep] at h
      dsimp only at h
      cases hrec : scanFrontends bp an anum openOK rest reg1 with
      | error e3 =>
        rw [hrec] at h
        cases h
        exact ih hrec
      | ok pr2 =>
        obtain ⟨r2, es2⟩ := pr2
        rw [hrec] at h
        cases h

theorem scanFrontends_mono {bp an : String} {anum : Int}
    {openOK : String → Bool} {fps : List String} {reg reg2 : DRegistry}
    {errs : List String}
    (h : scanFrontends bp an anum openOK fps reg = .ok (reg2, errs))
    {an2 fn2 : String} (hent : hasEntry reg an2 fn2) : hasEntry reg2 an2 fn2 := by
  induction fps generalizing reg errs with
  | nil =>
    rw [scanFrontends] at h
    simp only [Except.ok.injEq, Prod.mk.injEq] at h
    obtain ⟨rfl, rfl⟩ := h
    exact hent
  | cons fp rest ih =>
    rw [scanFrontends] at h
    cases hstep : processFrontend bp an anum openOK reg fp with
    | error e2 => rw [hstep] at h; cases h
    | ok pr =>
      obtain ⟨reg1, errs1⟩ := pr
      rw [hstep] at h
      dsimp only at h
      cases hrec : scanFrontends bp an anum openOK rest reg1 with
      | error e3 => rw [hrec] at h; cases h
      | ok pr2 =>
        obtain ⟨r2, es2⟩ := pr2
        rw [hrec] at h
        simp only [Except.ok.injEq, Prod.mk.injEq] at h
        obtain ⟨rfl, rfl⟩ := h
        exact ih hrec (processFrontend_mono hstep hent)

theorem scanFrontends_nodup {bp an : String} {anum : Int}
    {openOK : String → Bool} {fps : List String} {reg reg2 : DRegistry}
    {errs : List String}
    (h : scanFrontends bp an anum openOK fps reg = .ok (reg2, errs))
    (hn : nodupReg reg) : nodupReg reg2 := by
  induction fps generalizing reg errs with
  | nil =>
    rw [scanFrontends] at h
    simp only [Except.ok.injEq, Prod.mk.injEq] at h
    obtain ⟨rfl, rfl⟩ := h
    exact hn
  | cons fp rest ih =>
    rw [scanFrontends] at h
    cases hstep : processFrontend bp an anum openOK reg fp with
    | error e2 => rw [hstep] at h; cases h
    | ok pr =>
      obtain ⟨reg1, errs1⟩ := pr
      rw [hstep] at h
      dsimp only at h
      cases hrec : scanFrontends bp an anum openOK rest reg1 with
      | error e3 => rw [hrec] at h; cases h
      | ok pr2 =>
        obtain ⟨r2, es2⟩ := pr2
        rw [hrec] at h
        simp only [Except.ok.injEq, Prod.mk.injEq] at h
        obtain ⟨rfl, rfl⟩ := h
        exact ih hrec (processFrontend_nodup hstep hn)

theorem scanFrontends_errs {bp an : String} {anum : Int}
    {openOK : String → Bool} {fps : List String} {reg reg2 : DRegistry}
    {errs : List String}
    (h : scanFrontends bp an anum openOK fps reg = .ok (reg2, errs)) :
    errs = fps.foldr (fun fp a2 => frontendErrs fp ++ a2) [] := by
  induction fps generalizing reg errs with
  | nil =>
    rw [scanFrontends] at h
    simp only [Except.ok.injEq, Prod.mk.injEq] at h
    obtain ⟨rfl, rfl⟩ := h
    rfl
  | cons fp rest ih =>
    rw [scanFrontends] at h
    cases hstep : processFrontend bp an anum openOK reg fp with
    | error e2 => rw [hstep] at h; cases h
    | ok pr =>
      obtain ⟨reg1, errs1⟩ := pr
      rw [hstep] at h
      dsimp only at h
      cases hrec : scanFrontends bp an anum openOK rest reg1 with
      | error e3 => rw [hrec] at h; cases h
      | ok pr2 =>
        obtain ⟨r2, es2⟩ := pr2
        rw [hrec] at h
        simp only [Except.ok.injEq, Prod.mk.injEq] at h
        obtain ⟨rfl, rfl⟩ := h
        rw [List.foldr_cons, ← ih hrec]
        congr 1
        cases hatoi : goAtoi (strDrop (goFilepathBase fp) 8) with
        | none =>
          rw [processFrontend_malformed bp an anum openOK reg hatoi] at hstep
          simp only [Except.ok.injEq, Prod.mk.injEq] at hstep
          rw [← hstep.2, frontendErrs, hatoi]
        | some fnum =>
          obtain ⟨_, he⟩ := processFrontend_progress hatoi hstep
          rw [he, frontendErrs, hatoi]

theorem scanFrontends_progress {bp an : String} {anum : Int}
    {openOK : String → Bool} {fps : List String} {reg reg2 : DRegistry}
    {errs : List String}
    (h : scanFrontends bp an anum openOK fps reg = .ok (reg2, errs))
    {fp : String} (hmem : fp ∈ fps) {fnum : Int}
    (hgood : goAtoi (strDrop (goFilepathBase fp) 8) = some fnum) :
    hasEntry reg2 an fp := by
  induction fps generalizing reg errs with
  | nil => cases hmem
  | cons fp0 rest ih =>
    rw [scanFrontends] at h
    cases hstep : processFrontend bp an anum openOK reg fp0 with
    | error e2 => rw [hstep] at h; cases h
    | ok pr =>
      obtain ⟨reg1, errs1⟩ := pr
      rw [hstep] at h
      dsimp only at h
      cases hrec : scanFrontends bp an anum openOK rest reg1 with
      | error e3 => rw [hrec] at h; cases h
      | ok pr2 =>
        obtain ⟨r2, es2⟩ := pr2
        rw [hrec] at h
        simp only [Except.ok.injEq, Prod.mk.injEq] at h
        obtain ⟨rfl, rfl⟩ := h
        rcases List.mem_cons.mp hmem with rfl | hmem2
        · exact scanFrontends_mono hrec
            (processFrontend_progress hgood hstep).1
        · exact ih hrec hmem2

theorem scanFrontends_openOK {bp an : String} {anum : Int}
    {openOK : String → Bool} {fps : List String} {reg reg2 : DRegistry}
    {errs : List String}
    (h : scanFrontends bp an anum openOK fps reg = .ok (reg2, errs))
    {fp : String} (hmem : fp ∈ fps) {fnum : Int}
    (hgood : goAtoi (strDrop (goFilepathBase fp) 8) = some fnum) :
    openOK (fpathOf bp anum fnum) = true := by
  induction fps generalizing reg errs with
  | nil => cases hmem
  | cons fp0 rest ih =>
    rw [scanFrontends] at h
    cases hstep : processFrontend bp an anum openOK reg fp0 with
    | error e2 => rw [hstep] at h; cases h
    | ok pr =>
      obtain ⟨reg1, errs1⟩ := pr
      rw [hstep] at h
      dsimp only at h
      cases hrec : scanFrontends bp an anum openOK rest reg1 with
      | error e3 => rw [hrec] at h; cases h
      | ok pr2 =>
        obtain ⟨r2, es2⟩ := pr2
        rw [hrec] at h
        simp only [Except.ok.injEq, Prod.mk.injEq] at h
        obtain ⟨rfl, rfl⟩ := h
        rcases List.mem_cons.mp hmem with rfl | hmem2
        · exact processFrontend_ok_openOK hgood hstep
        · exact ih hrec hmem2

theorem scanFrontends_idem {bp an : String} {anum : Int}
    {openOK : String → Bool} {fps : List String} {reg : DRegistry}
    (hall : ∀ fp ∈ fps, ∀ fnum : Int,
      goAtoi (strDrop (goFilepathBase fp) 8) = some fnum →
      openOK (fpathOf bp anum fnum) = true ∧ hasEntry reg an fp) :
    scanFrontends bp an anum openOK fps reg =
      .ok (reg, fps.foldr (fun fp a2 => frontendErrs fp ++ a2) []) := by
  induction fps with
  | nil => rfl
  | cons fp rest ih =>
    rw [scanFrontends]
    cases hatoi : goAtoi (strDrop (goFilepathBase fp) 8) with
    | none =>
      rw [processFrontend_malformed bp an anum openOK reg hatoi]
      dsimp only
      rw [ih (fun fp2 hm => hall fp2 (List.mem_cons_of_mem fp hm))]
      rw [List.foldr_cons, frontendErrs, hatoi]
    | some fnum =>
      obtain ⟨ho, hent⟩ := hall fp (List.mem_cons_self fp rest) fnum hatoi
      rw [processFrontend_of_hasEntry hatoi ho hent]
      dsimp only
      rw [ih (fun fp2 hm => hall fp2 (List.mem_cons_of_mem fp hm))]
      rw [List.foldr_cons, frontendErrs, hatoi]

theorem treeErrs_cons (e : String × List String) (rest : ScanTree) :
    treeErrs (e :: rest) =
      (match goAtoi (strDrop (goFilepathBase e.1) 7) with
       | none => ["Invalid adapter number: " ++ strDrop (goFilepathBase e.1) 7]
       | some _ => e.2.foldr (fun fp a2 => frontendErrs fp ++ a2) [])
      ++ treeErrs rest := rfl

theorem scanAdapters_error_code {bp : String} {openOK : String → Bool}
    {tree : ScanTree} {reg : DRegistry} {e : Nat × String}
    (h : scanAdapters bp openOK tree reg = .error e) : e.1 = 2 := by
  induction tree generalizing reg with
  | nil => rw [scanAdapters] at h; cases h
  | cons entry rest ih =>
    obtain ⟨an, fps⟩ := entry
    rw [scanAdapters] at h
    cases hatoi : goAtoi (strDrop (goFilepathBase an) 7) with
    | none =>
      rw [hatoi] at h
      dsimp only at h
      cases hrec : scanAdapters bp openOK rest reg with
      | error e3 =>
        rw [hrec] at h
        cases h
        exact ih hrec
      | ok pr =>
        obtain ⟨r2, es2⟩ := pr
        rw [hrec] at h
        cases h
    | some anum =>
      rw [hatoi] at h
      dsimp only at h
      cases hfe : scanFrontends bp an anum openOK fps reg with
      | error e2 =>
        rw [hfe] at h
        cases h
        exact scanFrontends_error_code hfe
      | ok pr =>
        obtain ⟨reg1, errs1⟩ := pr
        rw [hfe] at h
        dsimp only at h
        cases hrec : scanAdapters bp openOK rest reg1 with
        | error e3 =>
          rw [hrec] at h
          cases h
          exact ih hrec
        | ok pr2 =>
          obtain ⟨r2, es2⟩ := pr2
          rw [hrec] at h
          cases h

theorem scanAdapters_mono {bp : String} {openOK : String → Bool}
    {tree : ScanTree} {reg reg2 : DRegistry} {errs : List String}
    (h : scanAdapters bp openOK tree reg = .ok (reg2, errs))
    {an2 fn2 : String} (hent : hasEntry reg an2 fn2) : hasEntry reg2 an2 fn2 := by
  induction tree generalizing reg errs with
  | nil =>
    rw [scanAdapters] at h
    simp only [Except.ok.injEq, Prod.mk.injEq] at h
    obtain ⟨rfl, rfl⟩ := h
    exact hent
  | cons entry rest ih =>
    obtain ⟨an, fps⟩ := entry
    rw [scanAdapters] at h
    cases hatoi : goAtoi (strDrop (goFilepathBase an) 7) with
    | none =>
      rw [hatoi] at h
      dsimp only at h
      cases hrec : scanAdapters bp openOK rest reg with
      | error e3 => rw [hrec] at h; cases h
      | ok pr =>
        obtain ⟨r2, es2⟩ := pr
        rw [hrec] at h
        simp only [Except.ok.injEq, Prod.mk.injEq] at h
        obtain ⟨rfl, rfl⟩ := h
        exact ih hrec hent
    | some anum =>
      rw [hatoi] at h
      dsimp only at h
      cases hfe : scanFrontends bp an anum openOK fps reg with
      | error e2 => rw [hfe] at h; cases h
      | ok pr =>
        obtain ⟨reg1, errs1⟩ := pr
        rw [hfe] at h
        dsimp only at h
        cases hrec : scanAdapters bp openOK rest reg1 with
        | error e3 => rw [hrec] at h; cases h
        | ok pr2 =>
          obtain ⟨r2, es2⟩ := pr2
          rw [hrec] at h
          simp only [Except.ok.injEq, Prod.mk.injEq] at h
          obtain ⟨rfl, rfl⟩ := h
          exact ih hrec (scanFrontends_mono hfe hent)

theorem scanAdapters_nodup {bp : String} {openOK : String → Bool}
    {tree : ScanTree} {reg reg2 : DRegistry} {errs : List String}
    (h : scanAdapters bp openOK tree reg = .ok (reg2, errs))
    (hn : nodupReg reg) : nodupReg reg2 := by
  induction tree generalizing reg errs with
  | nil =>
    rw [scanAdapters] at h
    simp only [Except.ok.injEq, Prod.mk.injEq] at h
    obtain ⟨rfl, rfl⟩ := h
    exact hn
  | cons entry rest ih =>
    obtain ⟨an, fps⟩ := entry
    rw [scanAdapters] at h
    cases hatoi : goAtoi (strDrop (goFilepathBase an) 7) with
    | none =>
      rw [hatoi] at h
      dsimp only at h
      cases hrec : scanAdapters bp openOK rest reg with
      | error e3 => rw [hrec] at h; cases h
      | ok pr =>
        obtain ⟨r2, es2⟩ := pr
        rw [hrec] at h
        simp only [Except.ok.injEq, Prod.mk.injEq] at h
        obtain ⟨rfl, rfl⟩ := h
        exact ih hrec hn
    | some anum =>
      rw [hatoi] at h
      dsimp only at h
      cases hfe : scanFrontends bp an anum openOK fps reg with
      | error e2 => rw [hfe] at h; cases h
      | ok pr =>
        obtain ⟨reg1, errs1⟩ := pr
        rw [hfe] at h
        dsimp only at h
        cases hrec : scanAdapters bp openOK rest reg1 with
        | error e3 => rw [hrec] at h; cases h
        | ok pr2 =>
          obtain ⟨r2, es2⟩ := pr2
          rw [hrec] at h
          simp only [Except.ok.injEq, Prod.mk.injEq] at h
          obtain ⟨rfl, rfl⟩ := h
          exact ih hrec (scanFrontends_nodup hfe hn)

theorem scanAdapters_errs {bp : String} {openOK : String → Bool}
    {tree : ScanTree} {reg reg2 : DRegistry} {errs : List String}
    (h : scanAdapters bp openOK tree reg = .ok (reg2, errs)) :
    errs = treeErrs tree := by
  induction tree generalizing reg errs with
  | nil =>
    rw [scanAdapters] at h
    simp only [Except.ok.injEq, Prod.mk.injEq] at h
    obtain ⟨rfl, rfl⟩ := h
    rfl
  | cons entry rest ih =>
    obtain ⟨an, fps⟩ := entry
    rw [scanAdapters] at h
    rw [treeErrs_cons]
    cases hatoi : goAtoi (strDrop (goFilepathBase an) 7) with
    | none =>
      rw [hatoi] at h
      dsimp only at h
      cases hrec : scanAdapters bp openOK rest reg with
      | error e3 => rw [hrec] at h; cases h
      | ok pr =>
        obtain ⟨r2, es2⟩ := pr
        rw [hrec] at h
        simp only [Except.ok.injEq, Prod.mk.injEq] at h
        obtain ⟨rfl, rfl⟩ := h
        dsimp only
        rw [← ih hrec]
        rfl
    | some anum =>
      rw [hatoi] at h
      dsimp only at h
      cases hfe : scanFrontends bp an anum openOK fps reg with
      | error e2 => rw [hfe] at h; cases h
      | ok pr =>
        obtain ⟨reg1, errs1⟩ := pr
        rw [hfe] at h
        dsimp only at h
        cases hrec : scanAdapters bp openOK rest reg1 with
        | error e3 => rw [hrec] at h; cases h
        | ok pr2 =>
          obtain ⟨r2, es2⟩ := pr2
          rw [hrec] at h
          simp only [Except.ok.injEq, Prod.mk.injEq] at h
          obtain ⟨rfl, rfl⟩ := h
          dsimp only
          rw [← ih hrec, ← scanFrontends_errs hfe]

theorem scanAdapters_progress {bp : String} {openOK : String → Bool}
    {tree : ScanTree} {reg reg2 : DRegistry} {errs : List String}
    (h : scanAdapters bp openOK tree reg = .ok (reg2, errs))
    {an : String} {fps : List String} (hmem : (an, fps) ∈ tree) {anum : Int}
    (hga : goAtoi (strDrop (goFilepathBase an) 7) = some anum)
    {fp : String} (hfmem : fp ∈ fps) {fnum : Int}
    (hgf : goAtoi (strDrop (goFilepathBase fp) 8) = some fnum) :
    hasEntry reg2 an fp ∧ openOK (fpathOf bp anum fnum) = true := by
  induction tree generalizing reg errs with
  | nil => cases hmem
  | cons entry rest ih =>
    obtain ⟨an0, fps0⟩ := entry
    rw [scanAdapters] at h
    cases hatoi : goAtoi (strDrop (goFilepathBase an0) 7) with
    | none =>
      rw [hatoi] at h
      dsimp only at h
      cases hrec : scanAdapters bp openOK rest reg with
      | error e3 => rw [hrec] at h; cases h
      | ok pr =>
        obtain ⟨r2, es2⟩ := pr
        rw [hrec] at h
        simp only [Except.ok.injEq, Prod.mk.injEq] at h
        obtain ⟨rfl, rfl⟩ := h
        rcases List.mem_cons.mp hmem with heq | hmem2
        · cases heq
          rw [hatoi] at hga
          cases hga
        · exact ih hrec hmem2
    | some anum0 =>
      rw [hatoi] at h
      dsimp only at h
      cases hfe : scanFrontends bp an0 anum0 openOK fps0 reg with
      | error e2 => rw [hfe] at h; cases h
      | ok pr =>
        obtain ⟨reg1, errs1⟩ := pr
        rw [hfe] at h
        dsimp only at h
        cases hrec : scanAdapters bp openOK rest reg1 with
        | error e3 => rw [hrec] at h; cases h
        | ok pr2 =>
          obtain ⟨r2, es2⟩ := pr2
          rw [hrec] at h
          simp only [Except.ok.injEq, Prod.mk.injEq] at h
          obtain ⟨rfl, rfl⟩ := h
          rcases List.mem_cons.mp hmem with heq | hmem2
          · cases heq
            rw [hatoi] at hga
            cases hga
            refine ⟨scanAdapters_mono hrec
              (scanFrontends_progress hfe hfmem hgf), ?_⟩
            exact scanFrontends_openOK hfe hfmem hgf
          · exact ih hrec hmem2

theorem scanAdapters_idem {bp : String} {openOK : String → Bool}
    {tree : ScanTree} {reg : DRegistry}
    (hall : ∀ an fps, (an, fps) ∈ tree → ∀ anum : Int,
      goAtoi (strDrop (goFilepathBase an) 7) = some anum →
      ∀ fp ∈ fps, ∀ fnum : Int,
        goAtoi (strDrop (goFilepathBase fp) 8) = some fnum →
        openOK (fpathOf bp anum fnum) = true ∧ hasEntry reg an fp) :
    scanAdapters bp openOK tree reg = .ok (reg, treeErrs tree) := by
  induction tree with
  | nil => rfl
  | cons entry rest ih =>
    obtain ⟨an, fps⟩ := entry
    rw [scanAdapters, treeErrs_cons]
    cases hatoi : goAtoi (strDrop (goFilepathBase an) 7) with
    | none =>
      dsimp only
      rw [ih (fun an2 fps2 hm => hall an2 fps2 (List.mem_cons_of_mem _ hm))]
      rfl
    | some anum =>
      dsimp only
      rw [scanFrontends_idem
        (fun fp hm fnum hgf =>
          hall an fps (List.mem_cons_self _ _) anum hatoi fp hm fnum hgf)]
      dsimp only
      rw [ih (fun an2 fps2 hm => hall an2 fps2 (List.mem_cons_of_mem _ hm))]

/-! Lemmas: logging, v5 membership, float formatting. -/

theorem mem_foldr_append {α β : Type} (g : α → List β) {l : List α} {a : α}
    (ha : a ∈ l) {x : β} (hx : x ∈ g a) :
    x ∈ l.foldr (fun y acc => g y ++ acc) [] := by
  induction l with
  | nil => cases ha
  | cons e t ih =>
    rw [List.foldr_cons]
    rcases List.mem_cons.mp ha with rfl | hm
    · exact List.mem_append.mpr (Or.inl hx)
    · exact List.mem_append.mpr (Or.inr (ih hm))

theorem logsFrontend_status_error {an fn : String} {r : FrontendReadings}
    {e : String} (h : r.status = .error e) :
    (⟨"error getting fe status", an, fn, e⟩ : LogEntry) ∈ logsFrontend an fn r := by
  unfold logsFrontend
  rw [h]
  exact List.mem_append.mpr (Or.inr (by simp))

theorem metricsLogs_mem {reg : Registry} {an : String} {a : AdapterEntry}
    (ha : (an, a) ∈ reg) {fn : String} {f : FrontendEntry}
    (hf : (fn, f) ∈ a.Frontends) {x : LogEntry}
    (hx : x ∈ logsFrontend an fn f.Device) : x ∈ metricsLogs reg := by
  unfold metricsLogs
  refine mem_foldr_append
    (fun y => y.2.Frontends.foldr
      (fun f2 acc2 => logsFrontend y.1 f2.1 f2.2.Device ++ acc2) []) ha ?_
  exact mem_foldr_append (fun f2 => logsFrontend an f2.1 f2.2.Device) hf hx

theorem name_mem_v5opt {l : List Param} {sc : Scale} {typ nm hp : String}
    {vg : Param → GoValue} {x : String} :
    (x ∈ ((v5opt l sc fun p =>
        ⟨typ, nm, hp, vg p⟩).toList.map MetricRecord.name)) ↔
      (v5cond l sc ∧ x = nm) := by
  cases l with
  | nil => simp [v5opt, v5cond]
  | cons p t =>
    by_cases hsc : p.scale = sc <;>
      simp [v5opt, hsc, v5cond]

theorem goFmtFloat_six_digits (m : Int) :
    ∃ ip fp : String, goFmtFloat m = ip ++ "." ++ fp ∧ fp.length = 6 ∧
      (∀ c ∈ ip.data, c ≠ '.') ∧ (∀ c ∈ fp.data, c.isDigit = true) := by
  refine ⟨(if m < 0 then "-" else "") ++ natToStr (m.natAbs / 1000000),
    zeroPad 6 (natToStr (m.natAbs % 1000000)), rfl, ?_, ?_, ?_⟩
  · exact zeroPad_length (natToStr_length_le (by omega)
      (by have := Nat.mod_lt m.natAbs (show 0 < 1000000 by omega); omega))
  · intro c hc
    rw [string_data_append] at hc
    rcases List.mem_append.mp hc with h | h
    · by_cases hm : m < 0
      · rw [if_pos hm] at h
        have hd : ("-" : String).data = ['-'] := rfl
        rw [hd] at h
        rcases List.mem_singleton.mp h with rfl
        decide
      · rw [if_neg hm] at h
        have hd : ("" : String).data = [] := rfl
        rw [hd] at h
        cases h
    · exact isDigit_ne (natDigits_all_digits (by rwa [natToStr_data] at h))
        (by left; decide)
  · intro c hc
    rcases zeroPad_chars hc with rfl | h
    · decide
    · exact natDigits_all_digits (by rwa [natToStr_data] at h)

theorem scanFrontends_malformed_cons {bp an : String} {anum : Int}
    {openOK : String → Bool} {fp : String} (rest : List String)
    (reg : DRegistry) (h : goAtoi (strDrop (goFilepathBase fp) 8) = none) :
    scanFrontends bp an anum openOK (fp :: rest) reg =
      (scanFrontends bp an anum openOK rest reg).map
        (fun p => (p.1,
          ("Invalid frontend number: " ++ strDrop (goFilepathBase fp) 8) :: p.2)) := by
  rw [scanFrontends, processFrontend_malformed bp an anum openOK reg h]
  dsimp only
  cases scanFrontends bp an anum openOK rest reg with
  | error e => rfl
  | ok pr => obtain ⟨r, es⟩ := pr; rfl

theorem scanAdapters_malformed_cons {bp : String} {openOK : String → Bool}
    {an : String} (fps : List String) (rest : ScanTree) (reg : DRegistry)
    (h : goAtoi (strDrop (goFilepathBase an) 7) = none) :
    scanAdapters bp openOK ((an, fps) :: rest) reg =
      (scanAdapters bp openOK rest reg).map
        (fun p => (p.1,
          ("Invalid adapter number: " ++ strDrop (goFilepathBase an) 7) :: p.2)) := by
  rw [scanAdapters, h]
  dsimp only
  cases scanAdapters bp openOK rest reg with
  | error e => rfl
  | ok pr => obtain ⟨r, es⟩ := pr; rfl

theorem startup_missing_base (bp : String) (tree : ScanTree)
    (openOK : String → Bool) :
    startup false bp tree openOK =
      .exit 1 ("Base path " ++ bp ++ " does not exist") := by
  unfold startup
  rw [if_pos (by decide)]

theorem startup_exit_code {bp : String} {tree : ScanTree}
    {openOK : String → Bool} {c : Nat} {m : String}
    (h : startup true bp tree openOK = .exit c m) : c = 2 := by
  unfold startup at h
  rw [if_neg (by decide)] at h
  cases hscan : scanAdapters bp openOK tree [] with
  | error e =>
    rw [hscan] at h
    cases h
    exact scanAdapters_error_code hscan
  | ok pr =>
    obtain ⟨r, es⟩ := pr
    rw [hscan] at h
    cases h

/-! Claim theorems. -/

theorem even_eq_mkPairs : ∀ (l : List String), l.length % 2 = 0 →
    ∃ ps : List (String × String), l = mkPairs ps
  | [] => fun _ => ⟨[], rfl⟩
  | [x] => fun h => by simp at h
  | a :: b :: t => fun h => by
    obtain ⟨ps, hps⟩ := even_eq_mkPairs t
      (by simp only [List.length_cons] at h; omega)
    exact ⟨(a, b) :: ps, by rw [mkPairs_cons, ← hps]⟩

/-- C3: for every successfully read 16-bit raw SNR or signal-strength value
(with the v3 status itself readable), the emitted metric carries exactly the
value `bits * 100 / 65535` in truncating integer arithmetic, where `bits` is
the bit-for-bit reinterpretation of the signed 16-bit reading as unsigned;
in particular a raw value of 123 yields 0. -/
theorem claim_C3_percent_formula :
    (∀ (ord : Bool) (aID fID : Int) (r : FrontendReadings) (st : Nat) (v : Int),
      r.status = .ok st → r.snr = .ok v →
      strInfix (writeGauge "dvb_fe_snr_percent"
          (.int (uint16Bits v * 100 / 65535)) helpSnrPercent
          (mkPairs (labelsMap ord aID fID)))
        (renderFrontend ord aID fID r))
    ∧ (∀ (ord : Bool) (aID fID : Int) (r : FrontendReadings) (st : Nat) (v : Int),
      r.status = .ok st → r.signalStrength = .ok v →
      strInfix (writeGauge "dvb_fe_signal_strength_percent"
          (.int (uint16Bits v * 100 / 65535)) helpSsPercent
          (mkPairs (labelsMap ord aID fID)))
        (renderFrontend ord aID fID r))
    ∧ uint16Bits 123 * 100 / 65535 = 0 := by
  refine ⟨?_, ?_, by decide⟩
  · intro ord aID fID r st v hst hv
    exact renderFrontend_has_v3 (renderV3_has_snr hst hv)
  · intro ord aID fID r st v hst hv
    exact renderFrontend_has_v3 (renderV3_has_ss hst hv)

/-- C3 witness: on a concrete device whose SNR query returns 123 the
rendered SNR-percent record carries the value 0. -/
theorem claim_C3_percent_formula_witness :
    strInfix (writeGauge "dvb_fe_snr_percent"
        (.int (uint16Bits 123 * 100 / 65535)) helpSnrPercent
        (mkPairs (labelsMap false 0 0)))
      (renderFrontend false 0 0 demoReadings)
    ∧ uint16Bits 123 * 100 / 65535 = 0 :=
  ⟨claim_C3_percent_formula.1 false 0 0 demoReadings 31 123 rfl rfl,
   claim_C3_percent_formula.2.2⟩

/-- C4: formatLabels renders an even positive label list as a braced
comma-separated key="value" list preserving input order, renders empty and
odd-length lists as the empty string, and never produces the bare token
consisting of an opening and closing brace alone. -/
theorem claim_C4_formatLabels :
    (∀ (k v : String) (ps : List (String × String)),
      formatLabels (mkPairs ((k, v) :: ps)) =
        "\x7b" ++ k ++ "=\x22" ++ v ++ "\x22"
          ++ strConcat (ps.map fun p => "," ++ p.1 ++ "=\x22" ++ p.2 ++ "\x22")
          ++ "\x7d")
    ∧ formatLabels [] = ""
    ∧ (∀ l : List String, l.length % 2 = 1 → formatLabels l = "")
    ∧ (∀ l : List String, formatLabels l ≠ "\x7b\x7d") := by
  refine ⟨formatLabels_mkPairs, rfl, fun l h => formatLabels_odd h, ?_⟩
  intro l h
  rcases Nat.mod_two_eq_zero_or_one l.length with hpar | hpar
  · obtain ⟨ps, rfl⟩ := even_eq_mkPairs l hpar
    cases ps with
    | nil => exact absurd h (by decide)
    | cons kv rest =>
      obtain ⟨k, v⟩ := kv
      rw [formatLabels_mkPairs] at h
      have hlen := congrArg String.length h
      simp only [string_length_append] at hlen
      have h1 : ("\x7b" : String).length = 1 := rfl
      have h2 : ("\x7d" : String).length = 1 := rfl
      have h3 : ("=\x22" : String).length = 2 := rfl
      have h4 : ("\x22" : String).length = 1 := rfl
      have h5 : ("\x7b\x7d" : String).length = 2 := rfl
      omega
  · rw [formatLabels_odd hpar] at h
    exact absurd h (by decide)

/-- C4 witness: a concrete two-pair list renders as the braced block and a
concrete odd-length list renders as the empty string. -/
theorem claim_C4_formatLabels_witness :
    formatLabels (mkPairs [("adapter", "0"), ("frontend", "1")]) =
      "\x7badapter=\x220\x22,frontend=\x221\x22\x7d"
    ∧ formatLabels ["odd"] = "" := by
  constructor
  · rw [claim_C4_formatLabels.1 "adapter" "0" [("frontend", "1")]]
    decide
  · exact claim_C4_formatLabels.2.2.1 ["odd"] (by decide)

/-- C5: the metrics handler always answers HTTP 200 with Content-Type
text/plain, its body is always a syntactically valid (possibly empty)
exposition stream, and an empty registry yields an empty body. -/
theorem claim_C5_always_200_valid :
    (∀ (ord : Bool) (reg : Registry), (handleMetrics ord reg).status = 200)
    ∧ (∀ (ord : Bool) (reg : Registry),
        (handleMetrics ord reg).contentType = "text/plain")
    ∧ (∀ (ord : Bool) (reg : Registry), ValidExpo (handleMetrics ord reg).body)
    ∧ (∀ ord : Bool, (handleMetrics ord []).body = "") :=
  ⟨fun _ _ => rfl, fun _ _ => rfl,
   fun ord reg => validExpo_metricsBody ord reg, fun _ => rfl⟩

/-- C7: value rendering returns exactly "1"/"0" for booleans, the exact
base-10 representation for the integer family (it parses back to the same
integer), a decimal with exactly six fractional digits for floats, and an
explicit error for any other type, in which case nothing is written. -/
theorem claim_C7_valToString :
    (∀ b : Bool, valToString (.bool b) = .ok (if b then "1" else "0"))
    ∧ valToString (.bool true) = .ok "1"
    ∧ valToString (.bool false) = .ok "0"
    ∧ (∀ i : Int, valToString (.int i) = .ok (goItoa i) ∧
        goAtoi (goItoa i) = some i)
    ∧ (∀ m : Int, ∃ ip fp : String,
        valToString (.float m) = .ok (ip ++ "." ++ fp) ∧ fp.length = 6 ∧
        (∀ c ∈ ip.data, c ≠ '.') ∧ (∀ c ∈ fp.data, c.isDigit = true))
    ∧ (∀ t : String, valToString (.unsupported t) =
        .error ("unsupported value type: " ++ t))
    ∧ (∀ (typeStr name help : String) (lp : List String) (t : String),
        writeSingle typeStr name (.unsupported t) help lp = "") := by
  refine ⟨fun b => rfl, rfl, rfl, fun i => ⟨rfl, goAtoi_goItoa i⟩, ?_,
    fun t => rfl, fun typeStr name help lp t => rfl⟩
  intro m
  obtain ⟨ip, fp, heq, h6, hip, hfp⟩ := goFmtFloat_six_digits m
  exact ⟨ip, fp, by rw [valToString, heq], h6, hip, hfp⟩

/-- C10: the bit-for-bit reinterpretation of any signed 16-bit raw reading
is total and bounded by 65535, and the computed percentage never leaves
the closed range from 0 to 100. -/
theorem claim_C10_percent_range (v : Int) (hlo : -32768 ≤ v)
    (hhi : v < 32768) :
    uint16Bits v ≤ 65535 ∧ 0 ≤ (rawPercent v : Int) ∧ rawPercent v ≤ 100 ∧
    uint16Bits v = if 0 ≤ v then v.toNat else (v + 65536).toNat :=
  ⟨uint16Bits_le v, Int.natCast_nonneg _, rawPercent_le_100 v,
   uint16Bits_cases hlo hhi⟩

/-- C10 witness: the bounds hold at the negative raw reading -1, whose
bit pattern reinterprets to 65535 and yields 100 percent. -/
theorem claim_C10_percent_range_witness :
    uint16Bits (-1) ≤ 65535 ∧ 0 ≤ (rawPercent (-1) : Int) ∧
    rawPercent (-1) ≤ 100 ∧
    uint16Bits (-1) = if 0 ≤ (-1 : Int) then (-1 : Int).toNat
      else ((-1 : Int) + 65536).toNat :=
  claim_C10_percent_range (-1) (by decide) (by decide)

/-- C6: the v5 section renders exactly its structured record list; a stat
query error yields no v5 records; and for each extended metric a record is
emitted precisely when the corresponding statistic is non-empty and its
first parameter reports the expected scale: decibel for the SNR and
signal-level gauges, counter for the six counter metrics — every
non-matching scale and every error outcome is skipped without failing. -/
theorem claim_C6_scale_matching :
    (∀ (lp : List String) (stat : Except String Stat5),
      renderV5 lp stat = renderRecs lp (collectV5 stat))
    ∧ (∀ e : String, collectV5 (.error e) = [])
    ∧ ∀ s : Stat5,
        (("dvb_fe_snr" ∈ (collectV5 (.ok s)).map MetricRecord.name) ↔
          v5cond s.CNR .decibel)
      ∧ (("dvb_fe_signal_strength_decibels" ∈
            (collectV5 (.ok s)).map MetricRecord.name) ↔
          v5cond s.Signal .decibel)
      ∧ (("dvb_fe_pre_error_bit_count" ∈
            (collectV5 (.ok s)).map MetricRecord.name) ↔
          v5cond s.PreErrBit .counter)
      ∧ (("dvb_fe_pre_total_bit_count" ∈
            (collectV5 (.ok s)).map MetricRecord.name) ↔
          v5cond s.PreTotBit .counter)
      ∧ (("dvb_fe_post_error_bit_count" ∈
            (collectV5 (.ok s)).map MetricRecord.name) ↔
          v5cond s.PostErrBit .counter)
      ∧ (("dvb_fe_post_total_bit_count" ∈
            (collectV5 (.ok s)).map MetricRecord.name) ↔
          v5cond s.PostTotBit .counter)
      ∧ (("dvb_fe_error_block_count" ∈
            (collectV5 (.ok s)).map MetricRecord.name) ↔
          v5cond s.ErrBlk .counter)
      ∧ (("dvb_fe_total_block_count" ∈
            (collectV5 (.ok s)).map MetricRecord.name) ↔
          v5cond s.TotBlk .counter) := by
  refine ⟨renderV5_eq_renderRecs, fun e => rfl, ?_⟩
  intro s
  refine ⟨?_, ?_, ?_, ?_, ?_, ?_, ?_, ?_⟩ <;>
    simp only [collectV5, List.map_append, List.mem_append,
      name_mem_v5opt] <;>
    simp

/-- C2 (amended): with the Go map iteration order fixed, the writer output
is a deterministic function of the registry contents and readings — the
structured record list does not depend on the order parameter at all, and
the two possible label orders produce bodies of identical length. -/
theorem claim_C2_determinism_given_order :
    (∀ (ord : Bool) (reg : Registry),
      (handleMetrics ord reg).body = renderTagged ord (collectAll reg))
    ∧ (∀ reg : Registry,
      (handleMetrics true reg).body.length =
        (handleMetrics false reg).body.length) := by
  refine ⟨fun ord reg => metricsBody_eq_renderTagged ord reg, fun reg => ?_⟩
  show (metricsBody true reg).length = (metricsBody false reg).length
  rw [metricsBody_eq_renderTagged, metricsBody_eq_renderTagged]
  exact renderTagged_length_ord _

/-- C2 counterexample: with identical registry contents and identical
hardware readings, the two Go map iteration orders of the labels map
produce different response bodies (different label order), so the output
is not a deterministic function of registry and readings alone. -/
theorem claim_C2_counterexample :
    (handleMetrics true cexRegistry2).body ≠
      (handleMetrics false cexRegistry2).body := by
  decide

theorem logsFrontend_stat_error {an fn : String} {r : FrontendReadings}
    {e : String} (h : r.stat = .error e) :
    (⟨"error getting fe status via v5 API", an, fn, e⟩ : LogEntry)
      ∈ logsFrontend an fn r := by
  unfold logsFrontend
  rw [h]
  exact List.mem_append.mpr (Or.inl (by simp))

/-- C1 (amended): every registered device's full rendered block appears in
the response regardless of the other devices, and each of a device's v5
stat error and v3 status error is logged with the device identity; within
a device, each of the BER, SNR, signal-strength and uncorrected-blocks
readings that succeeds (under a successful v3 status query) produces its
record, and a v5 stat error skips only the v5 records; however, a v3
status query error ends that device's processing, leaving only its v5
output. -/
theorem claim_C1_isolation :
    (∀ (ord : Bool) (reg : Registry) (an : String) (a : AdapterEntry)
        (fn : String) (f : FrontendEntry),
      (an, a) ∈ reg → (fn, f) ∈ a.Frontends →
      strInfix (renderFrontend ord a.ID f.ID f.Device) (metricsBody ord reg))
    ∧ (∀ (reg : Registry) (an : String) (a : AdapterEntry) (fn : String)
        (f : FrontendEntry) (e : String),
      (an, a) ∈ reg → (fn, f) ∈ a.Frontends → f.Device.status = .error e →
      (⟨"error getting fe status", an, fn, e⟩ : LogEntry) ∈ metricsLogs reg)
    ∧ (∀ (reg : Registry) (an : String) (a : AdapterEntry) (fn : String)
        (f : FrontendEntry) (e : String),
      (an, a) ∈ reg → (fn, f) ∈ a.Frontends → f.Device.stat = .error e →
      (⟨"error getting fe status via v5 API", an, fn, e⟩ : LogEntry)
        ∈ metricsLogs reg)
    ∧ (∀ (ord : Bool) (aID fID : Int) (r : FrontendReadings) (st b : Nat),
      r.status = .ok st → r.ber = .ok b →
      strInfix (writeGauge "dvb_fe_ber" (.int b) helpBer
          (mkPairs (labelsMap ord aID fID)))
        (renderFrontend ord aID fID r))
    ∧ (∀ (ord : Bool) (aID fID : Int) (r : FrontendReadings) (st : Nat)
        (v : Int), r.status = .ok st → r.snr = .ok v →
      strInfix (writeGauge "dvb_fe_snr_percent" (.int (rawPercent v))
          helpSnrPercent (mkPairs (labelsMap ord aID fID)))
        (renderFrontend ord aID fID r))
    ∧ (∀ (ord : Bool) (aID fID : Int) (r : FrontendReadings) (st : Nat)
        (v : Int), r.status = .ok st → r.signalStrength = .ok v →
      strInfix (writeGauge "dvb_fe_signal_strength_percent"
          (.int (rawPercent v)) helpSsPercent
          (mkPairs (labelsMap ord aID fID)))
        (renderFrontend ord aID fID r))
    ∧ (∀ (ord : Bool) (aID fID : Int) (r : FrontendReadings) (st v : Nat),
      r.status = .ok st → r.uncorrectedBlocks = .ok v →
      strInfix (writeCounter "dvb_fe_uncorrected_blocks_total" (.int v)
          helpUncorrected (mkPairs (labelsMap ord aID fID)))
        (renderFrontend ord aID fID r))
    ∧ (∀ (lp : List String) (e : String), renderV5 lp (.error e) = "")
    ∧ (∀ (ord : Bool) (aID fID : Int) (r : FrontendReadings) (e : String),
      r.status = .error e →
      renderFrontend ord aID fID r =
        renderV5 (mkPairs (labelsMap ord aID fID)) r.stat) := by
  refine ⟨?_, ?_, ?_, ?_, ?_, ?_, ?_, fun lp e => rfl, ?_⟩
  · intro ord reg an a fn f ha hf
    exact metricsBody_device ord ha hf
  · intro reg an a fn f e ha hf he
    exact metricsLogs_mem ha hf (logsFrontend_status_error he)
  · intro reg an a fn f e ha hf he
    exact metricsLogs_mem ha hf (logsFrontend_stat_error he)
  · intro ord aID fID r st b hst hb
    exact renderFrontend_has_v3 (renderV3_has_ber hst hb)
  · intro ord aID fID r st v hst hv
    exact renderFrontend_has_v3 (renderV3_has_snr hst hv)
  · intro ord aID fID r st v hst hv
    exact renderFrontend_has_v3 (renderV3_has_ss hst hv)
  · intro ord aID fID r st v hst hv
    exact renderFrontend_has_v3 (renderV3_has_ub hst hv)
  · intro ord aID fID r e hst
    exact renderFrontend_of_status_error hst

/-- C1 counterexample: on a device whose v3 status query errors, a BER
query that succeeds (with value 7) produces no record at all — the
response body is empty — contradicting the claim that every reading whose
query succeeds still produces its metric record. -/
theorem claim_C1_counterexample :
    cexReadings1.ber = .ok 7
    ∧ (handleMetrics false cexRegistry1).body = ""
    ∧ ¬ strInfix "dvb_fe_ber" (handleMetrics false cexRegistry1).body := by
  refine ⟨rfl, rfl, ?_⟩
  intro ⟨p, q, hpq⟩
  have hlen := congrArg String.length hpq
  rw [string_length_append, string_length_append] at hlen
  have h0 : (handleMetrics false cexRegistry1).body.length = 0 := rfl
  have hb : ("dvb_fe_ber" : String).length = 10 := rfl
  omega

/-- C1 witness: on a concrete registry the sole device's block occurs in
the body, its successful BER reading produces its record, and its v5 stat
error is logged. -/
theorem claim_C1_isolation_witness :
    strInfix (renderFrontend false 0 0 demoReadings)
      (metricsBody false demoRegistry)
    ∧ strInfix (writeGauge "dvb_fe_ber" (.int 400) helpBer
        (mkPairs (labelsMap false 0 0)))
      (renderFrontend false 0 0 demoReadings)
    ∧ (⟨"error getting fe status via v5 API", "/dev/dvb/adapter0",
        "/dev/dvb/adapter0/frontend0", "stat failed"⟩ : LogEntry)
      ∈ metricsLogs demoRegistry := by
  refine ⟨?_, ?_, ?_⟩
  · exact claim_C1_isolation.1 false demoRegistry "/dev/dvb/adapter0"
      ⟨0, "/dev/dvb/adapter0", [("/dev/dvb/adapter0/frontend0",
        ⟨0, "/dev/dvb/adapter0/frontend0", demoReadings⟩)]⟩
      "/dev/dvb/adapter0/frontend0"
      ⟨0, "/dev/dvb/adapter0/frontend0", demoReadings⟩
      (by decide) (by decide)
  · exact claim_C1_isolation.2.2.2.1 false 0 0 demoReadings 31 400 rfl rfl
  · exact claim_C1_isolation.2.2.1 demoRegistry "/dev/dvb/adapter0"
      ⟨0, "/dev/dvb/adapter0", [("/dev/dvb/adapter0/frontend0",
        ⟨0, "/dev/dvb/adapter0/frontend0", demoReadings⟩)]⟩
      "/dev/dvb/adapter0/frontend0"
      ⟨0, "/dev/dvb/adapter0/frontend0", demoReadings⟩
      "stat failed" (by decide) (by decide) rfl

/-- C8: the startup discovery is idempotent and duplicate-free: if a scan
of a tree from the empty registry succeeds with some registry and stderr
lines, re-running the same scan over the unchanged tree starting from that
registry returns it unchanged with the same stderr lines, and the
resulting registry has no duplicate adapter or frontend path keys. -/
theorem claim_C8_idempotent_discovery {bp : String} {openOK : String → Bool}
    {tree : ScanTree} {reg : DRegistry} {errs : List String}
    (h : scanAdapters bp openOK tree [] = .ok (reg, errs)) :
    scanAdapters bp openOK tree reg = .ok (reg, errs) ∧ nodupReg reg := by
  have herrs := scanAdapters_errs h
  subst herrs
  constructor
  · exact scanAdapters_idem (fun an fps hm anum hga fp hfm fnum hgf =>
      ⟨(scanAdapters_progress h hm hga hfm hgf).2,
       (scanAdapters_progress h hm hga hfm hgf).1⟩)
  · exact scanAdapters_nodup h
      ⟨List.nodup_nil, fun e he => absurd he (List.not_mem_nil e)⟩

/-- C8 witness: scanning a concrete tree twice yields the same registry
and logs, and that registry has no duplicate keys. -/
theorem claim_C8_idempotent_discovery_witness :
    scanAdapters "/dev/dvb" demoOpenOK demoTree demoScanReg =
      .ok (demoScanReg,
        ["Invalid adapter number: X", "Invalid frontend number: BAD"])
    ∧ nodupReg demoScanReg :=
  claim_C8_idempotent_discovery (by decide)

/-- C9: a missing base directory exits with code 1 after printing the
error; once the base directory exists the only fatal startup outcome is a
device-open failure, which exits with code 2 and prints the device path; a
malformed numeric suffix on a discovered frontend or adapter entry is
logged to stderr, that entry is skipped, and the scan continues. -/
theorem claim_C9_startup_errors :
    (∀ (bp : String) (tree : ScanTree) (openOK : String → Bool),
      startup false bp tree openOK =
        .exit 1 ("Base path " ++ bp ++ " does not exist"))
    ∧ (∀ (bp : String) (tree : ScanTree) (openOK : String → Bool)
        (c : Nat) (m : String),
      startup true bp tree openOK = .exit c m → c = 2)
    ∧ (∀ (bp an : String) (anum : Int) (openOK : String → Bool)
        (reg : DRegistry) (fp : String),
      goAtoi (strDrop (goFilepathBase fp) 8) = none →
      processFrontend bp an anum openOK reg fp =
        .ok (reg, ["Invalid frontend number: "
          ++ strDrop (goFilepathBase fp) 8]))
    ∧ (∀ (bp : String) (openOK : String → Bool) (an : String)
        (fps : List String) (rest : ScanTree) (reg : DRegistry),
      goAtoi (strDrop (goFilepathBase an) 7) = none →
      scanAdapters bp openOK ((an, fps) :: rest) reg =
        (scanAdapters bp openOK rest reg).map
          (fun p => (p.1, ("Invalid adapter number: "
            ++ strDrop (goFilepathBase an) 7) :: p.2)))
    ∧ (∀ (bp an : String) (anum : Int) (openOK : String → Bool)
        (reg : DRegistry) (fp : String) (fnum : Int),
      goAtoi (strDrop (goFilepathBase fp) 8) = some fnum →
      openOK (fpathOf bp anum fnum) = false →
      processFrontend bp an anum openOK reg fp =
        .error (2, "Error opening frontend " ++ fpathOf bp anum fnum)) := by
  refine ⟨?_, ?_, ?_, ?_, ?_⟩
  · intro bp tree openOK
    exact startup_missing_base bp tree openOK
  · intro bp tree openOK c m h
    exact startup_exit_code h
  · intro bp an anum openOK reg fp h
    exact processFrontend_malformed bp an anum openOK reg h
  · intro bp openOK an fps rest reg h
    exact scanAdapters_malformed_cons fps rest reg h
  · intro bp an anum openOK reg fp fnum h ho
    exact processFrontend_open_fail bp an anum reg h ho

/-- C9 witness: the three error behaviors at concrete inputs — missing
base directory, malformed frontend suffix, failed device open. -/
theorem claim_C9_startup_errors_witness :
    startup false "/dev/dvb" [] demoOpenOK =
      .exit 1 ("Base path " ++ "/dev/dvb" ++ " does not exist")
    ∧ processFrontend "/dev/dvb" "/dev/dvb/adapter0" 0 demoOpenOK []
        "/dev/dvb/adapter0/frontendBAD" =
      .ok ([], ["Invalid frontend number: "
        ++ strDrop (goFilepathBase "/dev/dvb/adapter0/frontendBAD") 8])
    ∧ processFrontend "/dev/dvb" "/dev/dvb/adapter0" 0 demoOpenFail []
        "/dev/dvb/adapter0/frontend0" =
      .error (2, "Error opening frontend " ++ fpathOf "/dev/dvb" 0 0) :=
  ⟨claim_C9_startup_errors.1 "/dev/dvb" [] demoOpenOK,
   claim_C9_startup_errors.2.2.1 "/dev/dvb" "/dev/dvb/adapter0" 0 demoOpenOK
     [] "/dev/dvb/adapter0/frontendBAD" (by decide),
   claim_C9_startup_errors.2.2.2.2 "/dev/dvb" "/dev/dvb/adapter0" 0
     demoOpenFail [] "/dev/dvb/adapter0/frontend0" 0 (by decide) rfl⟩

end DvbExporter
